import Mathlib

/-!
Verification of the mrnet reaction-network library against its specification.

The development shallowly embeds the parts of `mrnet/stochastic/analyze.py`,
`mrnet/core/reactions.py` and `mrnet/core/mol_entry.py` that the claims touch:

* the trajectory-analysis subsystem (`SimulationAnalyzer`): seed consistency
  check, `update_state`, the pathway-resolution loop of
  `extract_reaction_pathways`, and `collect_duplicate_pathways`;
* the entry bucketing pair `bucket_mol_entries` / `unbucket_mol_entries`;
* `RedoxReaction.generate` and the per-archetype `energy` / `free_energy`
  methods;
* the bipartite graph builders `graph_rep_1_1` and `graph_rep_3_2` together
  with the weight functions `softplus`, `exponent` and `rexp`.

Python floats are modelled as real numbers, integer machine values as `Nat` /
`Int`, Python `None` as `Option.none`, and raised exceptions as `Except` /
`Option` results.  Dictionaries are modelled as association lists, which keeps
the insertion-order semantics of Python dicts.
-/

/-! ## Trajectory analysis (`mrnet/stochastic/analyze.py`) -/

/-- A reaction as stored in `rnsd.index_to_reaction`: a dict holding the list
of reactant species indices and the list of product species indices. -/
structure MCReaction where
  reactants : List Nat
  products : List Nat
deriving DecidableEq, Repr

/-- A species-count state vector (`np.array` of per-species integer counts),
modelled as a list of integers indexed by species. -/
abbrev MCState := List Int

/-- One in-place increment `state[i] += c` of the state vector.  Out-of-range
indices would raise in numpy; `List.set` leaves the list unchanged, which no
claim exercises. -/
def applyDelta (c : Int) (state : MCState) (i : Nat) : MCState :=
  state.set i (state.getD i 0 + c)

/-- Embedding of `update_state` (analyze.py lines 25-30): subtract one for
every reactant occurrence, then add one for every product occurrence. -/
def update_state (state : MCState) (reaction : MCReaction) : MCState :=
  reaction.products.foldl (applyDelta 1) (reaction.reactants.foldl (applyDelta (-1)) state)

/-- The list `np.where(partial_state < 0)[0]` of species indices with a
negative count, in increasing index order. -/
def negative_species (state : MCState) : List Nat :=
  (List.range state.length).filter (fun i => state.getD i 0 < 0)

/-- One resolution step of the loop in `extract_reaction_pathways` (analyze.py
lines 171-177): scan the history for the first reaction whose products contain
the given species; if found, apply it to the state and prepend its index to the
pathway. -/
def resolve_one (index_to_reaction : Nat → MCReaction) (history : List Nat)
    (species : Nat) (acc : MCState × List Nat) : MCState × List Nat :=
  match history.find? (fun ri => (index_to_reaction ri).products.contains species) with
  | none => acc
  | some ri => (update_state acc.1 (index_to_reaction ri), ri :: acc.2)

/-- One sweep of the `for species_index in negative_species` loop: the list of
negative species is computed once, then each is resolved against the evolving
state. -/
def resolve_sweep (index_to_reaction : Nat → MCReaction) (history : List Nat)
    (acc : MCState × List Nat) : MCState × List Nat :=
  (negative_species acc.1).foldl (fun a s => resolve_one index_to_reaction history s a) acc

/-- The `while len(negative_species) != 0` loop, with explicit fuel since the
source loop has no termination guarantee; `none` means the loop did not finish
within the given fuel. -/
def resolve_loop (index_to_reaction : Nat → MCReaction) (history : List Nat) :
    Nat → MCState × List Nat → Option (MCState × List Nat)
  | 0, acc => if negative_species acc.1 = [] then some acc else none
  | fuel + 1, acc =>
    if negative_species acc.1 = [] then some acc
    else resolve_loop index_to_reaction history fuel (resolve_sweep index_to_reaction history acc)

/-- A value of the per-key record `{"pathway": ..., "frequency": ...}`. -/
structure PathwayRecord where
  pathway : List Nat
  frequency : Nat
deriving DecidableEq, Repr

/-- The pathway dictionary keyed by `frozenset(pathway)`, as an association
list in insertion order. -/
abbrev PathwayDict := List (Finset Nat × PathwayRecord)

/-- Increment the frequency of the record stored under the given key, leaving
everything else (including the stored representative pathway) unchanged. -/
def bumpFrequency : PathwayDict → Finset Nat → PathwayDict
  | [], _ => []
  | (k, r) :: rest, key =>
    if k = key then (k, ⟨r.pathway, r.frequency + 1⟩) :: rest
    else (k, r) :: bumpFrequency rest key

/-- Lookup of a key in the pathway dictionary. -/
def lookupKey (d : PathwayDict) (key : Finset Nat) : Option PathwayRecord :=
  (d.find? (fun kv => kv.1 = key)).map (·.2)

/-- Processing of one pathway by `collect_duplicate_pathways`: bump the
frequency if the reaction-index set is already a key, otherwise append a fresh
record with frequency 1. -/
def addPathway (d : PathwayDict) (p : List Nat) : PathwayDict :=
  if (lookupKey d p.toFinset).isSome then bumpFrequency d p.toFinset
  else d ++ [(p.toFinset, ⟨p, 1⟩)]

/-- Embedding of `collect_duplicate_pathways` (analyze.py lines 14-22). -/
def collect_duplicate_pathways (pathways : List (List Nat)) : PathwayDict :=
  pathways.foldl addPathway []

/-- Processing of one reaction history by `extract_reaction_pathways`
(analyze.py lines 149-181): find the first reaction producing the target, seed
the partial state with it, then resolve negative species.  `some none` means
the target was never produced (the history contributes no pathway);
`none` means the resolution loop ran out of fuel. -/
def extract_one_pathway (fuel : Nat) (index_to_reaction : Nat → MCReaction)
    (initial_state : MCState) (target : Nat) (history : List Nat) :
    Option (Option (List Nat)) :=
  match history.find? (fun ri => (index_to_reaction ri).products.contains target) with
  | none => some none
  | some ri =>
    (resolve_loop index_to_reaction history fuel
        (update_state initial_state (index_to_reaction ri), [ri])).map
      (fun acc => some acc.2)

/-- Embedding of `extract_reaction_pathways` over a list of reaction
histories, returning the deduplicated pathway dictionary stored into
`reaction_pathways_dict[target]`. -/
def extract_reaction_pathways (fuel : Nat) (index_to_reaction : Nat → MCReaction)
    (initial_state : MCState) (target : Nat) (histories : List (List Nat)) :
    Option PathwayDict :=
  (histories.mapM (extract_one_pathway fuel index_to_reaction initial_state target)).map
    (fun results => collect_duplicate_pathways (results.filterMap id))

/-! ### The seed-consistency check of `SimulationAnalyzer.__init__` -/

/-- Lexicographic comparison of character lists by code point, the order
Python uses for strings. -/
def listCharLt : List Char → List Char → Bool
  | [], [] => false
  | [], _ :: _ => true
  | _ :: _, [] => false
  | a :: as, b :: bs =>
    if a.toNat < b.toNat then true
    else if b.toNat < a.toNat then false
    else listCharLt as bs

/-- Python string comparison `a < b`. -/
def strLt (a b : String) : Bool :=
  listCharLt a.data b.data

/-- Insertion of a string into a sorted list, keeping equal elements stable. -/
def insertStr (x : String) : List String → List String
  | [] => [x]
  | y :: ys => if strLt x y then x :: y :: ys else y :: insertStr x ys

/-- Ascending stable sort mirroring Python `sorted` on the directory listing. -/
def sortStrings (l : List String) : List String :=
  l.foldr insertStr []

/-- Python `str.split(sep)` for a one-character separator, on the character
list: split at every occurrence, keeping empty parts. -/
def splitOnChar (sep : Char) : List Char → List (List Char)
  | [] => [[]]
  | c :: rest =>
    match splitOnChar sep rest with
    | [] => [[]]
    | cur :: parts => if c = sep then [] :: cur :: parts else (c :: cur) :: parts

/-- Python `str.startswith(pre)`. -/
def strStartsWith (s pre : String) : Bool :=
  pre.data.isPrefixOf s.data

/-- The seed token `x.split("_")[1]` of a history filename; `none` models the
IndexError raised when the name has no underscore. -/
def seedOf (x : String) : Option String :=
  ((splitOnChar '_' x.data).map List.asString).get? 1

/-- Embedding of the load-time seed consistency check of
`SimulationAnalyzer.__init__` (analyze.py lines 55-67).  Note that the source
computes `time_seeds` from `reaction_histories_contents` (line 64), and this is
mirrored faithfully here. -/
def seed_check (contents : List String) : Except String Unit :=
  let histories_contents := sortStrings contents
  let reaction_histories_contents := histories_contents.filter (fun x => strStartsWith x "reactions")
  let time_histories_contents := histories_contents.filter (fun x => strStartsWith x "times")
  let reaction_seeds := reaction_histories_contents.map seedOf
  let time_seeds := reaction_histories_contents.map seedOf
  if reaction_seeds ≠ time_seeds then
    Except.error "Reactions and times not from same set of initial seeds!"
  else
    let _ := time_histories_contents
    Except.ok ()

/-- Modelled from the spec: the seed identifiers that the time-history files
actually carry, i.e. `[x.split("_")[1] for x in time_histories_contents]`,
which is what the error message "Reactions and times not from same set of
initial seeds!" is about. -/
def time_seeds_from_time_files (contents : List String) : List (Option String) :=
  ((sortStrings contents).filter (fun x => strStartsWith x "times")).map seedOf

/-- The seed identifiers carried by the reaction-history files. -/
def reaction_seeds_from_reaction_files (contents : List String) : List (Option String) :=
  ((sortStrings contents).filter (fun x => strStartsWith x "reactions")).map seedOf

/-! ## Molecule entries and bucketing (`mol_entry.py`, `reactions.py`) -/

/-- The attributes of a `MoleculeEntry` used by bucketing and redox
enumeration.  The bonding graph is an opaque token; the networkx isomorphism
test `is_isomorphic` is an external oracle passed as a parameter where the
source calls it.  `eid` is the `entry_id`. -/
structure MolEntry where
  formula : String
  num_bonds : Nat
  charge : Int
  graph : Nat
  eid : Nat
deriving DecidableEq, Repr

/-- The nested bucket dictionary `bucket[formula][num_bonds][charge] = [...]`
produced by `bucket_mol_entries` with its default keys, as nested association
lists in dict insertion order. -/
abbrev ChargeBucket := List (Int × List MolEntry)

abbrev NBBucket := List (Nat × ChargeBucket)

abbrev FormulaBucket := List (String × NBBucket)

/-- Leaf-level insertion: `b.setdefault(charge, []).append(m)` — append to the
list stored under the first matching charge key, or append a new key at the
end. -/
def insertLeaf (cl : ChargeBucket) (c : Int) (m : MolEntry) : ChargeBucket :=
  match cl with
  | [] => [(c, [m])]
  | (c', ms) :: rest =>
    if c' = c then (c', ms ++ [m]) :: rest else (c', ms) :: insertLeaf rest c m

/-- Middle-level insertion under the `num_bonds` key. -/
def insertNB (nbl : NBBucket) (nb : Nat) (c : Int) (m : MolEntry) : NBBucket :=
  match nbl with
  | [] => [(nb, insertLeaf [] c m)]
  | (nb', cl) :: rest =>
    if nb' = nb then (nb', insertLeaf cl c m) :: rest else (nb', cl) :: insertNB rest nb c m

/-- Top-level insertion under the `formula` key. -/
def insertFormula (b : FormulaBucket) (m : MolEntry) : FormulaBucket :=
  match b with
  | [] => [(m.formula, insertNB [] m.num_bonds m.charge m)]
  | (f', nbl) :: rest =>
    if f' = m.formula then (f', insertNB nbl m.num_bonds m.charge m) :: rest
    else (f', nbl) :: insertFormula rest m

/-- Embedding of `bucket_mol_entries` (reactions.py lines 2698-2733) with its
default keys `["formula", "num_bonds", "charge"]`: each entry is filed under
its own attribute values, new dict keys appearing in insertion order. -/
def bucket_mol_entries (entries : List MolEntry) : FormulaBucket :=
  entries.foldl insertFormula []

/-- Depth-first flattening of a charge-level bucket. -/
def unbucketLeaf (cl : ChargeBucket) : List MolEntry :=
  cl.flatMap (·.2)

/-- Depth-first flattening of a bond-count-level bucket. -/
def unbucketNB (nbl : NBBucket) : List MolEntry :=
  nbl.flatMap (fun kv => unbucketLeaf kv.2)

/-- Embedding of `unbucket_mol_entries` (reactions.py lines 2736-2764): a
depth-first traversal of the nested dictionary in key order, extending the
output list at each leaf. -/
def unbucket_mol_entries (b : FormulaBucket) : List MolEntry :=
  b.flatMap (fun kv => unbucketNB kv.2)

/-- Decidable test that an entry carries the given (formula, num_bonds, charge)
key, used to express which leaf an entry lands in. -/
def keyMatch (f : String) (nb : Nat) (c : Int) (m : MolEntry) : Bool :=
  m.formula == f && m.num_bonds == nb && m.charge == c

/-- The entry list stored under a charge key of a charge-level bucket, empty
when the key is absent. -/
def chargeSlot (cl : ChargeBucket) (c : Int) : List MolEntry :=
  match cl.find? (fun kv => kv.1 == c) with
  | none => []
  | some (_, ms) => ms

/-- The leaf list stored under `nbl[nb][c]`, empty when a key is absent. -/
def leafOfNB (nbl : NBBucket) (nb : Nat) (c : Int) : List MolEntry :=
  match nbl.find? (fun kv => kv.1 == nb) with
  | none => []
  | some (_, cl) => chargeSlot cl c

/-- The leaf list stored under `bucket[f][nb][c]`, empty when any key is
absent. -/
def leafOf (b : FormulaBucket) (f : String) (nb : Nat) (c : Int) : List MolEntry :=
  match b.find? (fun kv => kv.1 == f) with
  | none => []
  | some (_, nbl) => leafOfNB nbl nb c

/-! ## `RedoxReaction.generate` (reactions.py lines 374-415) -/

/-- A generated one-electron redox reaction: the reactant (`entry0`, lower
charge) and product (`entry1`, higher charge) entries passed to the
`RedoxReaction` constructor. -/
structure GeneratedRedox where
  reactant : MolEntry
  product : MolEntry
deriving DecidableEq, Repr

/-- Ascending insertion keeping equal elements stable, used for Python
`sorted` over the charge keys. -/
def insertInt (x : Int) : List Int → List Int
  | [] => [x]
  | y :: ys => if x < y then x :: y :: ys else y :: insertInt x ys

/-- Python `sorted` over a list of integers (ascending, stable). -/
def sortInts (l : List Int) : List Int :=
  l.foldr insertInt []

/-- Embedding of `RedoxReaction.generate`: for every formula and bond count,
sort the charge keys, and for every adjacent pair of charges differing by
exactly one, pair every entry of the lower charge with every isomorphic entry
of the higher charge.  `isIso` is the external `is_isomorphic` oracle; the
family bookkeeping of the source, which no claim touches, is not modelled. -/
def RedoxReaction.generate (isIso : Nat → Nat → Bool) (entries : FormulaBucket) :
    List GeneratedRedox :=
  entries.flatMap fun fkv =>
    fkv.2.flatMap fun nbkv =>
      let charges := sortInts (nbkv.2.map (·.1))
      (charges.zip charges.tail).flatMap fun cc =>
        if cc.2 - cc.1 = 1 then
          (chargeSlot nbkv.2 cc.1).flatMap fun entry0 =>
            (chargeSlot nbkv.2 cc.2).filterMap fun entry1 =>
              if isIso entry0.graph entry1.graph then some ⟨entry0, entry1⟩ else none
        else []

/-- The bucket passed to `generate` files every entry under its own attribute
values; `bucket_mol_entries` guarantees this. -/
def bucketWF (entries : FormulaBucket) : Bool :=
  entries.all fun fkv => fkv.2.all fun nbkv => nbkv.2.all fun ckv => ckv.2.all fun m =>
    m.formula == fkv.1 && m.num_bonds == nbkv.1 && m.charge == ckv.1

/-! ## `MoleculeEntry.get_free_energy` (mol_entry.py lines 220-228) -/

/-- The thermodynamic attributes of a `MoleculeEntry`: electronic energy (with
correction), and optional enthalpy and entropy. -/
structure MolThermo where
  uncorrected_energy : ℝ
  correction : ℝ
  enthalpy : Option ℝ
  entropy : Option ℝ

/-- The `energy` property: `uncorrected_energy + correction`. -/
def MolThermo.energy (m : MolThermo) : ℝ :=
  m.uncorrected_energy + m.correction

/-- Embedding of `MoleculeEntry.get_free_energy`: `None` when enthalpy or
entropy is missing, otherwise the closed-form combination of energy, enthalpy
and entropy at the given temperature. -/
def MolThermo.get_free_energy (m : MolThermo) (temp : ℝ) : Option ℝ :=
  match m.enthalpy, m.entropy with
  | some h, some s =>
    some (m.energy * 27.21139 + 0.0433641 * h - temp * s * 0.0000433641)
  | _, _ => none

/-! ## Reaction energetics (`reactions.py`) -/

/-- Modelled from the spec: `mrnet.utils.mols.mol_free_energy` is imported by
`reactions.py` but its module is not under `src/`.  Following the spec's
free-energy formula, realised identically in `MoleculeEntry.get_free_energy`
(mol_entry.py lines 220-228), it returns `None` when a needed component is
missing and otherwise combines energy, enthalpy and entropy at the given
temperature. -/
def mol_free_energy (energy enthalpy entropy : Option ℝ) (temp : ℝ) : Option ℝ :=
  match energy, enthalpy, entropy with
  | some e, some h, some s => some (e * 27.21139 + 0.0433641 * h - temp * s * 0.0000433641)
  | _, _, _ => none

/-- The mutable energetic state of a `RedoxReaction`: the stored reactant and
product thermodynamic attributes and the `energy_A/B`, `free_energy_A/B` and
cached `base_free_energy_A/B` fields.  `electron_free_energy` is a plain real:
the source only calls `free_energy` when it is set, and would raise a
`TypeError` otherwise. -/
structure RedoxReaction where
  rct_energy : Option ℝ
  pro_energy : Option ℝ
  rct_enthalpy : Option ℝ
  pro_enthalpy : Option ℝ
  rct_entropy : Option ℝ
  pro_entropy : Option ℝ
  electron_free_energy : ℝ
  rxn_type_A : String
  rxn_type_B : String
  energy_A : Option ℝ
  energy_B : Option ℝ
  base_free_energy_A : Option ℝ
  base_free_energy_B : Option ℝ
  free_energy_A : Option ℝ
  free_energy_B : Option ℝ

/-- Embedding of `RedoxReaction.energy` (reactions.py lines 487-503). -/
def RedoxReaction.energy (r : RedoxReaction) : RedoxReaction :=
  match r.pro_energy, r.rct_energy with
  | some pe, some re2 => { r with energy_A := some (pe - re2), energy_B := some (re2 - pe) }
  | _, _ => { r with energy_A := none, energy_B := none }

/-- Embedding of `RedoxReaction.free_energy` (reactions.py lines 438-485):
return the cached base free energies at the reference temperature when
present, otherwise recompute, adding the electron free energy with the sign
determined by the reaction type, and cache the result at the reference
temperature. -/
noncomputable def RedoxReaction.free_energy (r : RedoxReaction) (temperature : ℝ) :
    RedoxReaction :=
  if temperature = 298.15 ∧ r.base_free_energy_A.isSome ∧ r.base_free_energy_B.isSome then
    { r with free_energy_A := r.base_free_energy_A, free_energy_B := r.base_free_energy_B }
  else
    let rct_free_energy := mol_free_energy r.rct_energy r.rct_enthalpy r.rct_entropy temperature
    let pro_free_energy := mol_free_energy r.pro_energy r.pro_enthalpy r.pro_entropy temperature
    let r2 :=
      match rct_free_energy, pro_free_energy with
      | some rf, some pf =>
        if r.rxn_type_A = "One electron reduction" then
          { r with free_energy_A := some (pf - rf + -r.electron_free_energy),
                   free_energy_B := some (rf - pf + r.electron_free_energy) }
        else
          { r with free_energy_A := some (pf - rf + r.electron_free_energy),
                   free_energy_B := some (rf - pf + -r.electron_free_energy) }
      | _, _ => { r with free_energy_A := none, free_energy_B := none }
    if temperature = 298.15 then
      { r2 with base_free_energy_A := r2.free_energy_A, base_free_energy_B := r2.free_energy_B }
    else r2

/-- The mutable energetic state of an `IntermolecularReaction` (one reactant,
two products). -/
structure IntermolecularReaction where
  rct_energy : Option ℝ
  pro0_energy : Option ℝ
  pro1_energy : Option ℝ
  rct_enthalpy : Option ℝ
  pro0_enthalpy : Option ℝ
  pro1_enthalpy : Option ℝ
  rct_entropy : Option ℝ
  pro0_entropy : Option ℝ
  pro1_entropy : Option ℝ
  energy_A : Option ℝ
  energy_B : Option ℝ
  base_free_energy_A : Option ℝ
  base_free_energy_B : Option ℝ
  free_energy_A : Option ℝ
  free_energy_B : Option ℝ

/-- Embedding of `IntermolecularReaction.energy` (reactions.py lines
1143-1161). -/
def IntermolecularReaction.energy (r : IntermolecularReaction) : IntermolecularReaction :=
  match r.pro1_energy, r.pro0_energy, r.rct_energy with
  | some p1, some p0, some re2 =>
    { r with energy_A := some (p0 + p1 - re2), energy_B := some (re2 - p0 - p1) }
  | _, _, _ => { r with energy_A := none, energy_B := none }

/-- Embedding of `IntermolecularReaction.free_energy` (reactions.py lines
1093-1141). -/
noncomputable def IntermolecularReaction.free_energy (r : IntermolecularReaction)
    (temperature : ℝ) : IntermolecularReaction :=
  if temperature = 298.15 ∧ r.base_free_energy_A.isSome ∧ r.base_free_energy_B.isSome then
    { r with free_energy_A := r.base_free_energy_A, free_energy_B := r.base_free_energy_B }
  else
    let rct_free_energy := mol_free_energy r.rct_energy r.rct_enthalpy r.rct_entropy temperature
    let pro0_free_energy :=
      mol_free_energy r.pro0_energy r.pro0_enthalpy r.pro0_entropy temperature
    let pro1_free_energy :=
      mol_free_energy r.pro1_energy r.pro1_enthalpy r.pro1_entropy temperature
    let r2 :=
      match rct_free_energy, pro0_free_energy, pro1_free_energy with
      | some rf, some p0, some p1 =>
        { r with free_energy_A := some (p0 + p1 - rf), free_energy_B := some (rf - p0 - p1) }
      | _, _, _ => { r with free_energy_A := none, free_energy_B := none }
    if temperature = 298.15 then
      { r2 with base_free_energy_A := r2.free_energy_A, base_free_energy_B := r2.free_energy_B }
    else r2

/-- The mutable energetic state of a `ConcertedReaction`: per-participant
thermodynamic attribute lists aligned with `rct_ids` / `pro_ids`, total side
charges, and the optional electron free energy. -/
structure ConcertedReaction where
  rct_ids : List Nat
  pro_ids : List Nat
  rct_energy : List (Option ℝ)
  pro_energy : List (Option ℝ)
  rct_enthalpy : List (Option ℝ)
  pro_enthalpy : List (Option ℝ)
  rct_entropy : List (Option ℝ)
  pro_entropy : List (Option ℝ)
  rct_charge : Int
  pro_charge : Int
  electron_free_energy : Option ℝ
  energy_A : Option ℝ
  energy_B : Option ℝ
  base_free_energy_A : Option ℝ
  base_free_energy_B : Option ℝ
  free_energy_A : Option ℝ
  free_energy_B : Option ℝ

/-- Embedding of `ConcertedReaction.energy` (reactions.py lines 1869-1892).
The guard of the source reads `all(nrg is None for nrg in self.rct_energy)`:
energies are computed only when every constituent energy is missing — in which
case `np.sum` over the `None`s followed by the subtraction raises a
`TypeError` (modelled as `none`) unless both lists are empty — and a reaction
whose energies are all present falls into the `else` branch, which stores
`None` in both `energy_A` and `energy_B`. -/
def ConcertedReaction.energy (c : ConcertedReaction) : Option ConcertedReaction :=
  if c.rct_energy.all Option.isNone && c.pro_energy.all Option.isNone then
    if c.rct_energy.isEmpty && c.pro_energy.isEmpty then
      some { c with energy_A := some (0 - 0), energy_B := some (0 - 0) }
    else none
  else some { c with energy_A := none, energy_B := none }

/-- The per-participant free energies
`[mol_free_energy(energies[i], enthalpies[i], entropies[i], temp) for i in range(n)]`. -/
def participantFreeEnergies (n : Nat) (energies enthalpies entropies : List (Option ℝ))
    (temp : ℝ) : List (Option ℝ) :=
  (List.range n).map fun i =>
    mol_free_energy (energies.getD i none) (enthalpies.getD i none) (entropies.getD i none) temp

/-- Embedding of `ConcertedReaction.free_energy` (reactions.py lines
1806-1867).  Unlike the other archetypes, the cached branch does not return,
so the recomputation below always runs and overwrites `free_energy_A/B`; the
base cache is set when the reference temperature is used and the cache was not
already filled. -/
noncomputable def ConcertedReaction.free_energy (c : ConcertedReaction) (temperature : ℝ) :
    ConcertedReaction :=
  let set_base := temperature = 298.15 ∧
    ¬(c.base_free_energy_A.isSome ∧ c.base_free_energy_B.isSome)
  let electron_free : ℝ := c.electron_free_energy.getD 0
  let rct_free_energies :=
    participantFreeEnergies c.rct_ids.length c.rct_energy c.rct_enthalpy c.rct_entropy temperature
  let pro_free_energies :=
    participantFreeEnergies c.pro_ids.length c.pro_energy c.pro_enthalpy c.pro_entropy temperature
  let c2 :=
    if rct_free_energies.all Option.isSome ∧ pro_free_energies.all Option.isSome then
      let reactant_free_energy := (rct_free_energies.map (fun o => o.getD 0)).sum
      let product_free_energy := (pro_free_energies.map (fun o => o.getD 0)).sum
      let total_charge_change : ℝ := ((c.pro_charge - c.rct_charge : Int) : ℝ)
      { c with
        free_energy_A :=
          some (product_free_energy - reactant_free_energy + total_charge_change * electron_free),
        free_energy_B :=
          some (reactant_free_energy - product_free_energy - total_charge_change * electron_free) }
    else { c with free_energy_A := none, free_energy_B := none }
  if set_base then
    { c2 with base_free_energy_A := c2.free_energy_A, base_free_energy_B := c2.free_energy_B }
  else c2

/-- A concrete concerted reaction (one reactant, one product) whose
constituent energies, enthalpies and entropies are all present. -/
def exampleConcerted : ConcertedReaction where
  rct_ids := [0]
  pro_ids := [1]
  rct_energy := [some (-1)]
  pro_energy := [some (-2)]
  rct_enthalpy := [some 1]
  pro_enthalpy := [some 2]
  rct_entropy := [some 1]
  pro_entropy := [some 2]
  rct_charge := 0
  pro_charge := 0
  electron_free_energy := some (-1.8)
  energy_A := none
  energy_B := none
  base_free_energy_A := none
  base_free_energy_B := none
  free_energy_A := none
  free_energy_B := none

/-! ## Bipartite graph construction (`reactions.py` lines 1965-2496) -/

/-- A node key of the networkx digraph: species nodes are keyed by the Python
integer index, composite reaction nodes by their name string; the two never
collide. -/
inductive GNode where
  | species (i : Nat)
  | rxn (name : String)
deriving DecidableEq, Repr

/-- The weight attributes placed on an edge by `add_edge`.  `rexp` is optional
because `graph_rep_3_2` omits the keyword on the edges leaving its composite
nodes. -/
structure EdgeAttrs where
  softplus : ℝ
  exponent : ℝ
  rexp : Option ℝ
  weight : ℝ

/-- One edge of the digraph in insertion order. -/
structure GEdge where
  src : GNode
  dst : GNode
  attrs : EdgeAttrs

/-- The attributes stored by `add_node` on a composite reaction node. -/
structure GNodeData where
  name : GNode
  rxn_type : String
  bipartite : Nat
  energy : Option ℝ
  free_energy : ℝ
  entry_ids : String

/-- A digraph as the insertion-ordered lists of explicit `add_node` and
`add_edge` calls (networkx also creates species endpoints implicitly; those
carry no attributes and are determined by the edges). -/
structure BGraph where
  nodes : List GNodeData
  edges : List GEdge

/-- Embedding of the `softplus` cost function (reactions.py lines 2547-2551). -/
noncomputable def softplus (free_energy : ℝ) : ℝ :=
  Real.log (1 + 273 / 500 * Real.exp free_energy)

/-- Embedding of the `exponent` cost function (reactions.py lines 2554-2558). -/
noncomputable def exponent (free_energy : ℝ) : ℝ :=
  Real.exp free_energy

/-- Embedding of the `rexp` cost function (reactions.py lines 2561-2572); the
float128 computation of the source is modelled exactly by the reals. -/
noncomputable def rexp (free_energy : ℝ) : ℝ :=
  if free_energy ≤ 0 then Real.exp free_energy else Real.exp (38.94 * free_energy)

/-- The duck-typed attributes of a reaction object that the graph builders
read, holding the values present after the `reaction.free_energy()` refresh
each builder performs before reading `free_energy_A/B`.  Indices are the
`parameters["ind"]` species indices and ids the entry ids, both natural
numbers. -/
structure ReactionView where
  rct_indices : List Nat
  pro_indices : List Nat
  rct_ids : List Nat
  pro_ids : List Nat
  rxn_type_A : String
  rxn_type_B : String
  energy_A : Option ℝ
  energy_B : Option ℝ
  free_energy_A : ℝ
  free_energy_B : ℝ

/-- Embedding of `graph_rep_1_1` (reactions.py lines 2433-2496): one composite
node per direction named `"rct,pro"` and `"pro,rct"`, an entry edge into each
carrying the full weight functions of that direction's free energy, and an
exit edge out of each with all weight fields zero and weight one. -/
noncomputable def graph_rep_1_1 (reaction : ReactionView) : Except String BGraph :=
  if reaction.rct_indices.length ≠ 1 ∨ reaction.pro_indices.length ≠ 1 then
    Except.error "Must provide reaction with 1 reactant and product for graph_rep_1_1"
  else
    let rct_ind := reaction.rct_indices.getD 0 0
    let pro0_ind := reaction.pro_indices.getD 0 0
    let node_name_A := Nat.repr rct_ind ++ "," ++ Nat.repr pro0_ind
    let node_name_B := Nat.repr pro0_ind ++ "," ++ Nat.repr rct_ind
    let fA := reaction.free_energy_A
    let fB := reaction.free_energy_B
    let entry_ids_A :=
      Nat.repr (reaction.rct_ids.getD 0 0) ++ "," ++ Nat.repr (reaction.pro_ids.getD 0 0)
    let entry_ids_B :=
      Nat.repr (reaction.pro_ids.getD 0 0) ++ "," ++ Nat.repr (reaction.rct_ids.getD 0 0)
    Except.ok
      { nodes :=
          [⟨GNode.rxn node_name_A, reaction.rxn_type_A, 1, reaction.energy_A, fA, entry_ids_A⟩,
           ⟨GNode.rxn node_name_B, reaction.rxn_type_B, 1, reaction.energy_B, fB, entry_ids_B⟩],
        edges :=
          [⟨GNode.species rct_ind, GNode.rxn node_name_A,
            ⟨softplus fA, exponent fA, some (rexp fA), 1⟩⟩,
           ⟨GNode.rxn node_name_A, GNode.species pro0_ind, ⟨0, 0, some 0, 1⟩⟩,
           ⟨GNode.species pro0_ind, GNode.rxn node_name_B,
            ⟨softplus fB, exponent fB, some (rexp fB), 1⟩⟩,
           ⟨GNode.rxn node_name_B, GNode.species rct_ind, ⟨0, 0, some 0, 1⟩⟩] }

/-- Stable insertion of an index into an argsort result, comparing the values
at the indices. -/
def argsortInsert (l : List Nat) (i : Nat) : List Nat → List Nat
  | [] => [i]
  | j :: js => if l.getD i 0 < l.getD j 0 then i :: j :: js else j :: argsortInsert l i js

/-- `np.argsort` over a list of naturals (positions sorted by value). -/
def argsort (l : List Nat) : List Nat :=
  (List.range l.length).foldr (argsortInsert l) []

/-- Ascending insertion of a natural number, used for `np.sort`. -/
def insertNat (x : Nat) : List Nat → List Nat
  | [] => [x]
  | y :: ys => if x < y then x :: y :: ys else y :: insertNat x ys

/-- `np.sort` over a list of naturals. -/
def sortNats (l : List Nat) : List Nat :=
  l.foldr insertNat []

/-- Embedding of `graph_rep_3_2` (reactions.py lines 1965-2193), reproducing
the source's node and edge insertions in order, including that the edges
leaving composite nodes carry no `rexp` keyword, that the block for the third
forward composite node attaches its outgoing edges to the second one, and
that the reverse entry edges use `rexp(free_energy_A)`. -/
noncomputable def graph_rep_3_2 (reaction : ReactionView) : Except String BGraph :=
  if reaction.rct_ids.length ≠ 3 ∨ reaction.pro_ids.length ≠ 2 then
    Except.error "Must provide reaction with 3 reactants and 2 products for graph_rep_3_2"
  else
    let rct0_ind := reaction.rct_indices.getD 0 0
    let rct1_ind := reaction.rct_indices.getD 1 0
    let rct2_ind := reaction.rct_indices.getD 2 0
    let pro0_ind := reaction.pro_indices.getD 0 0
    let pro1_ind := reaction.pro_indices.getD 1 0
    let rct0_id := reaction.rct_ids.getD 0 0
    let rct1_id := reaction.rct_ids.getD 1 0
    let rct2_id := reaction.rct_ids.getD 2 0
    let pro0_id := reaction.pro_ids.getD 0 0
    let pro1_id := reaction.pro_ids.getD 1 0
    let two_prod_name :=
      if pro0_ind ≤ pro1_ind then Nat.repr pro0_ind ++ "+" ++ Nat.repr pro1_ind
      else Nat.repr pro1_ind ++ "+" ++ Nat.repr pro0_ind
    let two_prod_name_entry_ids :=
      if pro0_ind ≤ pro1_ind then Nat.repr pro0_id ++ "+" ++ Nat.repr pro1_id
      else Nat.repr pro1_id ++ "+" ++ Nat.repr pro0_id
    let reactant_inds := argsort (reaction.rct_indices.take 3)
    let reactants_ind_list := sortNats (reaction.rct_indices.take 3)
    let reactants_name :=
      Nat.repr (reactants_ind_list.getD 0 0) ++ "+" ++ Nat.repr (reactants_ind_list.getD 1 0)
        ++ "+" ++ Nat.repr (reactants_ind_list.getD 2 0)
    let reactants_name_entry_ids :=
      Nat.repr (reactants_ind_list.getD (reactant_inds.getD 0 0) 0) ++ "+"
        ++ Nat.repr (reactants_ind_list.getD (reactant_inds.getD 1 0) 0) ++ "+"
        ++ Nat.repr (reactants_ind_list.getD (reactant_inds.getD 2 0) 0)
    let two_prod_name0 := Nat.repr pro0_ind ++ "+PR_" ++ Nat.repr pro1_ind
    let two_prod_name1 := Nat.repr pro1_ind ++ "+PR_" ++ Nat.repr pro0_ind
    let three_reac_name0 :=
      if rct1_ind ≤ rct2_ind then
        Nat.repr rct0_ind ++ "+PR_" ++ Nat.repr rct1_ind ++ "+PR_" ++ Nat.repr rct2_ind
      else Nat.repr rct0_ind ++ "+PR_" ++ Nat.repr rct2_ind ++ "+PR_" ++ Nat.repr rct1_ind
    let three_reac_entry_ids0 :=
      if rct1_ind ≤ rct2_ind then
        Nat.repr rct0_id ++ "+PR_" ++ Nat.repr rct1_id ++ "+PR_" ++ Nat.repr rct2_id
      else Nat.repr rct0_id ++ "+PR_" ++ Nat.repr rct2_id ++ "+PR_" ++ Nat.repr rct1_id
    let three_reac_name1 :=
      if rct0_ind ≤ rct2_ind then
        Nat.repr rct1_ind ++ "+PR_" ++ Nat.repr rct0_ind ++ "+PR_" ++ Nat.repr rct2_ind
      else Nat.repr rct1_ind ++ "+PR_" ++ Nat.repr rct2_ind ++ "+PR_" ++ Nat.repr rct0_ind
    let three_reac_entry_ids1 :=
      if rct0_ind ≤ rct2_ind then
        Nat.repr rct1_id ++ "+PR_" ++ Nat.repr rct0_id ++ "+PR_" ++ Nat.repr rct2_id
      else Nat.repr rct1_id ++ "+PR_" ++ Nat.repr rct2_id ++ "+PR_" ++ Nat.repr rct0_id
    let three_reac_name2 :=
      if rct0_ind ≤ rct1_ind then
        Nat.repr rct2_ind ++ "+PR_" ++ Nat.repr rct0_ind ++ "+PR_" ++ Nat.repr rct1_ind
      else Nat.repr rct2_ind ++ "+PR_" ++ Nat.repr rct1_ind ++ "+PR_" ++ Nat.repr rct0_ind
    let three_reac_entry_ids2 :=
      if rct0_ind ≤ rct1_ind then
        Nat.repr rct2_id ++ "+PR_" ++ Nat.repr rct0_id ++ "+PR_" ++ Nat.repr rct1_id
      else Nat.repr rct2_id ++ "+PR_" ++ Nat.repr rct1_id ++ "+PR_" ++ Nat.repr rct0_id
    let node_name_A0 := three_reac_name0 ++ "," ++ two_prod_name
    let node_name_A1 := three_reac_name1 ++ "," ++ two_prod_name
    let node_name_A2 := three_reac_name2 ++ "," ++ two_prod_name
    let node_name_B0 := two_prod_name0 ++ "," ++ reactants_name
    let node_name_B1 := two_prod_name1 ++ "," ++ reactants_name
    let two_prod_entry_ids0 := Nat.repr pro0_id ++ "+PR_" ++ Nat.repr pro1_id
    let two_prod_entry_ids1 := Nat.repr pro1_id ++ "+PR_" ++ Nat.repr pro0_id
    let entry_ids_name_A0 := three_reac_entry_ids0 ++ "," ++ two_prod_name_entry_ids
    let entry_ids_name_A1 := three_reac_entry_ids1 ++ "," ++ two_prod_name_entry_ids
    let entry_ids_name_A2 := three_reac_entry_ids2 ++ "," ++ two_prod_name_entry_ids
    let entry_ids_name_B0 := two_prod_entry_ids0 ++ "," ++ reactants_name_entry_ids
    let entry_ids_name_B1 := two_prod_entry_ids1 ++ "," ++ reactants_name_entry_ids
    let fA := reaction.free_energy_A
    let fB := reaction.free_energy_B
    Except.ok
      { nodes :=
          [⟨GNode.rxn node_name_A0, reaction.rxn_type_A, 1, reaction.energy_A, fA,
            entry_ids_name_A0⟩,
           ⟨GNode.rxn node_name_A1, reaction.rxn_type_A, 1, reaction.energy_A, fA,
            entry_ids_name_A1⟩,
           ⟨GNode.rxn node_name_A2, reaction.rxn_type_A, 1, reaction.energy_A, fA,
            entry_ids_name_A2⟩,
           ⟨GNode.rxn node_name_B0, reaction.rxn_type_B, 1, reaction.energy_B, fB,
            entry_ids_name_B0⟩,
           ⟨GNode.rxn node_name_B1, reaction.rxn_type_B, 1, reaction.energy_B, fB,
            entry_ids_name_B1⟩],
        edges :=
          [⟨GNode.species rct0_ind, GNode.rxn node_name_A0,
            ⟨softplus fA, exponent fA, some (rexp fA), 1⟩⟩,
           ⟨GNode.rxn node_name_A0, GNode.species pro0_ind, ⟨0, 0, none, 1⟩⟩,
           ⟨GNode.rxn node_name_A0, GNode.species pro1_ind, ⟨0, 0, none, 1⟩⟩,
           ⟨GNode.species rct1_ind, GNode.rxn node_name_A1,
            ⟨softplus fA, exponent fA, some (rexp fA), 1⟩⟩,
           ⟨GNode.rxn node_name_A1, GNode.species pro0_ind, ⟨0, 0, none, 1⟩⟩,
           ⟨GNode.rxn node_name_A1, GNode.species pro1_ind, ⟨0, 0, none, 1⟩⟩,
           ⟨GNode.species rct2_ind, GNode.rxn node_name_A2,
            ⟨softplus fA, exponent fA, some (rexp fA), 1⟩⟩,
           ⟨GNode.rxn node_name_A1, GNode.species pro0_ind, ⟨0, 0, none, 1⟩⟩,
           ⟨GNode.rxn node_name_A1, GNode.species pro1_ind, ⟨0, 0, none, 1⟩⟩,
           ⟨GNode.species pro0_ind, GNode.rxn node_name_B0,
            ⟨softplus fB, exponent fB, some (rexp fA), 1⟩⟩,
           ⟨GNode.rxn node_name_B0, GNode.species rct0_ind, ⟨0, 0, none, 1⟩⟩,
           ⟨GNode.rxn node_name_B0, GNode.species rct1_ind, ⟨0, 0, none, 1⟩⟩,
           ⟨GNode.rxn node_name_B0, GNode.species rct2_ind, ⟨0, 0, none, 1⟩⟩,
           ⟨GNode.species pro1_ind, GNode.rxn node_name_B1,
            ⟨softplus fB, exponent fB, some (rexp fA), 1⟩⟩,
           ⟨GNode.rxn node_name_B1, GNode.species rct0_ind, ⟨0, 0, none, 1⟩⟩,
           ⟨GNode.rxn node_name_B1, GNode.species rct1_ind, ⟨0, 0, none, 1⟩⟩,
           ⟨GNode.rxn node_name_B1, GNode.species rct2_ind, ⟨0, 0, none, 1⟩⟩] }

/-- Embedding of `graph_rep_1_2` (reactions.py lines 2321-2430): one forward
composite node anchored at the reactant, and one reverse composite node per
permutation of the two products, each anchored at its first product. -/
noncomputable def graph_rep_1_2 (reaction : ReactionView) : Except String BGraph :=
  if reaction.rct_ids.length ≠ 1 ∨ reaction.pro_ids.length ≠ 2 then
    Except.error "Must provide reaction with 1 reactant and 2 products for graph_rep_1_2"
  else
    let rct_ind := reaction.rct_indices.getD 0 0
    let pro0_ind := reaction.pro_indices.getD 0 0
    let pro1_ind := reaction.pro_indices.getD 1 0
    let rct_id := reaction.rct_ids.getD 0 0
    let pro0_id := reaction.pro_ids.getD 0 0
    let pro1_id := reaction.pro_ids.getD 1 0
    let pro_sorted_indices := argsort reaction.pro_indices
    let two_mol_name :=
      Nat.repr (reaction.pro_indices.getD (pro_sorted_indices.getD 0 0) 0) ++ "+"
        ++ Nat.repr (reaction.pro_indices.getD (pro_sorted_indices.getD 1 0) 0)
    let two_mol_name_entry_ids :=
      Nat.repr (reaction.pro_ids.getD (pro_sorted_indices.getD 0 0) 0) ++ "+"
        ++ Nat.repr (reaction.pro_ids.getD (pro_sorted_indices.getD 1 0) 0)
    let two_mol_name0 := Nat.repr pro0_ind ++ "+PR_" ++ Nat.repr pro1_ind
    let two_mol_name1 := Nat.repr pro1_ind ++ "+PR_" ++ Nat.repr pro0_ind
    let node_name_A := Nat.repr rct_ind ++ "," ++ two_mol_name
    let node_name_B0 := two_mol_name0 ++ "," ++ Nat.repr rct_ind
    let node_name_B1 := two_mol_name1 ++ "," ++ Nat.repr rct_ind
    let two_mol_entry_ids0 := Nat.repr pro0_id ++ "+PR_" ++ Nat.repr pro1_id
    let two_mol_entry_ids1 := Nat.repr pro1_id ++ "+PR_" ++ Nat.repr pro0_id
    let entry_ids_name_A := Nat.repr rct_id ++ "," ++ two_mol_name_entry_ids
    let entry_ids_name_B0 := two_mol_entry_ids0 ++ "," ++ Nat.repr rct_id
    let entry_ids_name_B1 := two_mol_entry_ids1 ++ "," ++ Nat.repr rct_id
    let fA := reaction.free_energy_A
    let fB := reaction.free_energy_B
    Except.ok
      { nodes :=
          [⟨GNode.rxn node_name_A, reaction.rxn_type_A, 1, reaction.energy_A, fA,
            entry_ids_name_A⟩,
           ⟨GNode.rxn node_name_B0, reaction.rxn_type_B, 1, reaction.energy_B, fB,
            entry_ids_name_B0⟩,
           ⟨GNode.rxn node_name_B1, reaction.rxn_type_B, 1, reaction.energy_B, fB,
            entry_ids_name_B1⟩],
        edges :=
          [⟨GNode.species rct_ind, GNode.rxn node_name_A,
            ⟨softplus fA, exponent fA, some (rexp fA), 1⟩⟩,
           ⟨GNode.rxn node_name_A, GNode.species pro0_ind, ⟨0, 0, some 0, 1⟩⟩,
           ⟨GNode.rxn node_name_A, GNode.species pro1_ind, ⟨0, 0, some 0, 1⟩⟩,
           ⟨GNode.rxn node_name_B0, GNode.species rct_ind, ⟨0, 0, some 0, 1⟩⟩,
           ⟨GNode.species pro0_ind, GNode.rxn node_name_B0,
            ⟨softplus fB, exponent fB, some (rexp fB), 1⟩⟩,
           ⟨GNode.rxn node_name_B1, GNode.species rct_ind, ⟨0, 0, some 0, 1⟩⟩,
           ⟨GNode.species pro1_ind, GNode.rxn node_name_B1,
            ⟨softplus fB, exponent fB, some (rexp fB), 1⟩⟩] }

/-- Embedding of `graph_rep_2_2` (reactions.py lines 2196-2318): one composite
node per direction and per permutation of that direction's side, with entry
edges carrying the direction's weight functions and exit edges to each member
of the other side carrying zero weight fields. -/
noncomputable def graph_rep_2_2 (reaction : ReactionView) : Except String BGraph :=
  if reaction.rct_ids.length ≠ 2 ∨ reaction.pro_ids.length ≠ 2 then
    Except.error "Must provide reaction with 2 reactants and 2 products for graph_rep_2_2"
  else
    let rct0_ind := reaction.rct_indices.getD 0 0
    let rct1_ind := reaction.rct_indices.getD 1 0
    let pro0_ind := reaction.pro_indices.getD 0 0
    let pro1_ind := reaction.pro_indices.getD 1 0
    let rct0_id := reaction.rct_ids.getD 0 0
    let rct1_id := reaction.rct_ids.getD 1 0
    let pro0_id := reaction.pro_ids.getD 0 0
    let pro1_id := reaction.pro_ids.getD 1 0
    let pro_sorted_indices := argsort reaction.pro_indices
    let rct_sorted_indices := argsort reaction.rct_indices
    let base_pro_name :=
      Nat.repr (reaction.pro_indices.getD (pro_sorted_indices.getD 0 0) 0) ++ "+"
        ++ Nat.repr (reaction.pro_indices.getD (pro_sorted_indices.getD 1 0) 0)
    let base_pro_eids :=
      Nat.repr (reaction.pro_ids.getD (pro_sorted_indices.getD 0 0) 0) ++ "+"
        ++ Nat.repr (reaction.pro_ids.getD (pro_sorted_indices.getD 1 0) 0)
    let base_rct_name :=
      Nat.repr (reaction.rct_indices.getD (rct_sorted_indices.getD 0 0) 0) ++ "+"
        ++ Nat.repr (reaction.rct_indices.getD (rct_sorted_indices.getD 1 0) 0)
    let base_rct_eids :=
      Nat.repr (reaction.rct_ids.getD (rct_sorted_indices.getD 0 0) 0) ++ "+"
        ++ Nat.repr (reaction.rct_ids.getD (rct_sorted_indices.getD 1 0) 0)
    let rct_node_names :=
      [Nat.repr rct0_ind ++ "+PR_" ++ Nat.repr rct1_ind ++ "," ++ base_pro_name,
       Nat.repr rct1_ind ++ "+PR_" ++ Nat.repr rct0_ind ++ "," ++ base_pro_name]
    let pro_node_names :=
      [Nat.repr pro0_ind ++ "+PR_" ++ Nat.repr pro1_ind ++ "," ++ base_rct_name,
       Nat.repr pro1_ind ++ "+PR_" ++ Nat.repr pro0_ind ++ "," ++ base_rct_name]
    let rct_node_eids :=
      [Nat.repr rct0_id ++ "+PR_" ++ Nat.repr rct1_id ++ "," ++ base_pro_eids,
       Nat.repr rct1_id ++ "+PR_" ++ Nat.repr rct0_id ++ "," ++ base_pro_eids]
    let pro_node_eids :=
      [Nat.repr pro0_id ++ "+PR_" ++ Nat.repr pro1_id ++ "," ++ base_rct_eids,
       Nat.repr pro1_id ++ "+PR_" ++ Nat.repr pro0_id ++ "," ++ base_rct_eids]
    let fA := reaction.free_energy_A
    let fB := reaction.free_energy_B
    Except.ok
      { nodes :=
          [⟨GNode.rxn (rct_node_names.getD 0 ""), reaction.rxn_type_A, 1, reaction.energy_A,
            fA, rct_node_eids.getD 0 ""⟩,
           ⟨GNode.rxn (rct_node_names.getD 1 ""), reaction.rxn_type_A, 1, reaction.energy_A,
            fA, rct_node_eids.getD 1 ""⟩,
           ⟨GNode.rxn (pro_node_names.getD 0 ""), reaction.rxn_type_B, 1, reaction.energy_B,
            fB, pro_node_eids.getD 0 ""⟩,
           ⟨GNode.rxn (pro_node_names.getD 1 ""), reaction.rxn_type_B, 1, reaction.energy_B,
            fB, pro_node_eids.getD 1 ""⟩],
        edges :=
          [⟨GNode.species rct0_ind, GNode.rxn (rct_node_names.getD 0 ""),
            ⟨softplus fA, exponent fA, some (rexp fA), 1⟩⟩,
           ⟨GNode.rxn (rct_node_names.getD 0 ""), GNode.species pro0_ind, ⟨0, 0, some 0, 1⟩⟩,
           ⟨GNode.rxn (rct_node_names.getD 0 ""), GNode.species pro1_ind, ⟨0, 0, some 0, 1⟩⟩,
           ⟨GNode.species rct1_ind, GNode.rxn (rct_node_names.getD 1 ""),
            ⟨softplus fA, exponent fA, some (rexp fA), 1⟩⟩,
           ⟨GNode.rxn (rct_node_names.getD 1 ""), GNode.species pro0_ind, ⟨0, 0, some 0, 1⟩⟩,
           ⟨GNode.rxn (rct_node_names.getD 1 ""), GNode.species pro1_ind, ⟨0, 0, some 0, 1⟩⟩,
           ⟨GNode.species pro0_ind, GNode.rxn (pro_node_names.getD 0 ""),
            ⟨softplus fB, exponent fB, some (rexp fB), 1⟩⟩,
           ⟨GNode.rxn (pro_node_names.getD 0 ""), GNode.species rct0_ind, ⟨0, 0, some 0, 1⟩⟩,
           ⟨GNode.rxn (pro_node_names.getD 0 ""), GNode.species rct1_ind, ⟨0, 0, some 0, 1⟩⟩,
           ⟨GNode.species pro1_ind, GNode.rxn (pro_node_names.getD 1 ""),
            ⟨softplus fB, exponent fB, some (rexp fB), 1⟩⟩,
           ⟨GNode.rxn (pro_node_names.getD 1 ""), GNode.species rct0_ind, ⟨0, 0, some 0, 1⟩⟩,
           ⟨GNode.rxn (pro_node_names.getD 1 ""), GNode.species rct1_ind, ⟨0, 0, some 0, 1⟩⟩] }

/-- A concrete one-reactant-two-products reaction for evaluating
`graph_rep_1_2`. -/
noncomputable def exampleRxn12 : ReactionView where
  rct_indices := [0]
  pro_indices := [1, 2]
  rct_ids := [20]
  pro_ids := [21, 22]
  rxn_type_A := "Molecular decomposition breaking one bond A -> B+C"
  rxn_type_B := "Molecular formation from one new bond A+B -> C"
  energy_A := some 1
  energy_B := some (-1)
  free_energy_A := 1
  free_energy_B := -1

/-- A concrete two-reactants-two-products reaction for evaluating
`graph_rep_2_2`. -/
noncomputable def exampleRxn22 : ReactionView where
  rct_indices := [0, 1]
  pro_indices := [2, 3]
  rct_ids := [30, 31]
  pro_ids := [32, 33]
  rxn_type_A := "Concerted"
  rxn_type_B := "Concerted"
  energy_A := some 1
  energy_B := some (-1)
  free_energy_A := 1
  free_energy_B := -1

/-- The edges leaving the composite node with the given name. -/
def outgoingFromComposite (g : BGraph) (name : String) : List GEdge :=
  g.edges.filter (fun e => e.src == GNode.rxn name)

/-- The edges whose source is any composite (bipartite = 1) node. -/
def compositeSourceEdges (g : BGraph) : List GEdge :=
  g.edges.filter (fun e => match e.src with | GNode.rxn _ => true | GNode.species _ => false)

/-- A concrete one-reactant-one-product reaction for evaluating
`graph_rep_1_1`. -/
noncomputable def exampleRxn11 : ReactionView where
  rct_indices := [0]
  pro_indices := [1]
  rct_ids := [5]
  pro_ids := [6]
  rxn_type_A := "One electron oxidation"
  rxn_type_B := "One electron reduction"
  energy_A := some 1
  energy_B := some (-1)
  free_energy_A := 2
  free_energy_B := -2

/-- A concrete 3-reactants-to-2-products reaction for evaluating
`graph_rep_3_2`. -/
noncomputable def exampleRxn32 : ReactionView where
  rct_indices := [0, 1, 2]
  pro_indices := [3, 4]
  rct_ids := [10, 11, 12]
  pro_ids := [13, 14]
  rxn_type_A := "Concerted"
  rxn_type_B := "Concerted"
  energy_A := some 1
  energy_B := some (-1)
  free_energy_A := 1
  free_energy_B := -1

/-- A concrete neutral entry of formula `X1` with no bonds. -/
def exampleEntryA : MolEntry :=
  ⟨"X1", 0, 0, 0, 100⟩

/-- A concrete charge `+1` entry of formula `X1` with no bonds, graph
isomorphic to `exampleEntryA`. -/
def exampleEntryB : MolEntry :=
  ⟨"X1", 0, 1, 1, 101⟩

/-- The numeric value of a decimal digit character (non-digits map to 0). -/
def digitVal (c : Char) : Nat :=
  if c = '1' then 1 else if c = '2' then 2 else if c = '3' then 3 else if c = '4' then 4
  else if c = '5' then 5 else if c = '6' then 6 else if c = '7' then 7 else if c = '8' then 8
  else if c = '9' then 9 else 0

/-- Horner step reading a decimal digit string left to right. -/
def digitStep (a : Nat) (c : Char) : Nat :=
  10 * a + digitVal c

/-! ## Lemmas: decimal representations of distinct naturals are distinct -/

theorem digitVal_digitChar : ∀ k, k < 10 → digitVal (Nat.digitChar k) = k := by
  decide

theorem digitChar_ne_comma : ∀ k, k < 10 → Nat.digitChar k ≠ ',' := by
  decide

theorem toDigitsCore_foldl :
    ∀ (f n : Nat) (ds : List Char), n < f →
      (Nat.toDigitsCore 10 f n ds).foldl digitStep 0 = ds.foldl digitStep n := by
  intro f
  induction f with
  | zero => intro n ds h; exact absurd h (Nat.not_lt_zero n)
  | succ f ih =>
    intro n ds h
    by_cases h10 : n / 10 = 0
    · have hn : n < 10 := by omega
      have hmod : n % 10 = n := Nat.mod_eq_of_lt hn
      simp only [Nat.toDigitsCore, h10, if_true, List.foldl_cons]
      simp [digitStep, hmod, digitVal_digitChar n hn]
    · have hpos : 0 < n := by
        rcases Nat.eq_zero_or_pos n with h0 | h0
        · subst h0; simp at h10
        · exact h0
      have hlt : n / 10 < f := by
        have := Nat.div_lt_self hpos (by norm_num : 1 < 10)
        omega
      simp only [Nat.toDigitsCore, h10, if_false]
      rw [ih (n / 10) (Nat.digitChar (n % 10) :: ds) hlt, List.foldl_cons]
      have : digitStep (n / 10) (Nat.digitChar (n % 10)) = n := by
        simp only [digitStep, digitVal_digitChar (n % 10) (Nat.mod_lt n (by norm_num))]
        omega
      rw [this]

theorem nat_repr_foldl (n : Nat) : (Nat.repr n).data.foldl digitStep 0 = n := by
  have hdata : (Nat.repr n).data = Nat.toDigitsCore 10 (n + 1) n [] := rfl
  rw [hdata, toDigitsCore_foldl (n + 1) n [] (Nat.lt_succ_self n)]
  rfl

theorem nat_repr_injective {a b : Nat} (h : Nat.repr a = Nat.repr b) : a = b := by
  have := congrArg (fun s : String => s.data.foldl digitStep 0) h
  simpa [nat_repr_foldl] using this

theorem toDigitsCore_mem :
    ∀ (f n : Nat) (ds : List Char) (c : Char),
      c ∈ Nat.toDigitsCore 10 f n ds → c ∈ ds ∨ ∃ k, k < 10 ∧ c = Nat.digitChar k := by
  intro f
  induction f with
  | zero => intro n ds c hc; exact Or.inl hc
  | succ f ih =>
    intro n ds c hc
    by_cases h10 : n / 10 = 0
    · simp only [Nat.toDigitsCore, h10, if_true] at hc
      rcases List.mem_cons.mp hc with h | h
      · exact Or.inr ⟨n % 10, Nat.mod_lt n (by norm_num), h⟩
      · exact Or.inl h
    · simp only [Nat.toDigitsCore, h10, if_false] at hc
      rcases ih (n / 10) (Nat.digitChar (n % 10) :: ds) c hc with h | h
      · rcases List.mem_cons.mp h with h2 | h2
        · exact Or.inr ⟨n % 10, Nat.mod_lt n (by norm_num), h2⟩
        · exact Or.inl h2
      · exact Or.inr h

theorem comma_not_mem_repr (n : Nat) : ',' ∉ (Nat.repr n).data := by
  intro hmem
  have hdata : (Nat.repr n).data = Nat.toDigitsCore 10 (n + 1) n [] := rfl
  rw [hdata] at hmem
  rcases toDigitsCore_mem (n + 1) n [] ',' hmem with h | ⟨k, hk, hc⟩
  · simp at h
  · exact digitChar_ne_comma k hk hc.symm

theorem sep_append_inj :
    ∀ (xs xs' ys ys' : List Char), xs ++ ',' :: ys = xs' ++ ',' :: ys' →
      ',' ∉ xs → ',' ∉ xs' → xs = xs' ∧ ys = ys' := by
  intro xs
  induction xs with
  | nil =>
    intro xs' ys ys' h hx hx'
    cases xs' with
    | nil => simpa using h
    | cons z zs =>
      exfalso
      simp only [List.nil_append, List.cons_append, List.cons.injEq] at h
      exact hx' (h.1 ▸ List.mem_cons_self z zs)
  | cons x xs ih =>
    intro xs' ys ys' h hx hx'
    cases xs' with
    | nil =>
      exfalso
      simp only [List.nil_append, List.cons_append, List.cons.injEq] at h
      exact hx (h.1 ▸ List.mem_cons_self x xs)
    | cons z zs =>
      simp only [List.cons_append, List.cons.injEq] at h
      obtain ⟨hxz, htail⟩ := h
      have hx2 : ',' ∉ xs := fun hm => hx (List.mem_cons_of_mem x hm)
      have hx2' : ',' ∉ zs := fun hm => hx' (List.mem_cons_of_mem z hm)
      obtain ⟨h1, h2⟩ := ih zs ys ys' htail hx2 hx2'
      exact ⟨by rw [hxz, h1], h2⟩

theorem name_pair_inj {a b c d : Nat}
    (h : Nat.repr a ++ "," ++ Nat.repr b = Nat.repr c ++ "," ++ Nat.repr d) :
    a = c ∧ b = d := by
  have hdata : (Nat.repr a).data ++ ',' :: (Nat.repr b).data
      = (Nat.repr c).data ++ ',' :: (Nat.repr d).data := by
    have := congrArg String.data h
    simpa [String.data_append] using this
  obtain ⟨h1, h2⟩ :=
    sep_append_inj _ _ _ _ hdata (comma_not_mem_repr a) (comma_not_mem_repr c)
  exact ⟨nat_repr_injective (String.ext h1), nat_repr_injective (String.ext h2)⟩

theorem comma_name_ne {a b : Nat} (h : a ≠ b) :
    Nat.repr a ++ "," ++ Nat.repr b ≠ Nat.repr b ++ "," ++ Nat.repr a := by
  intro heq
  exact h (name_pair_inj heq).1

/-- C2: for a reaction with one reactant index and one product index, distinct,
`graph_rep_1_1` builds exactly the two composite nodes `"a,b"` and `"b,a"`
(distinct, so the graph has exactly 2 composite nodes) and exactly four edges
(the four endpoint pairs are distinct): one entry and one exit edge per
composite node, the forward entry edge carrying
softplus `= ln(1 + (273/500)·exp(dG_A))`, exponent `= exp(dG_A)`,
rexp `= exp(dG_A)` for `dG_A ≤ 0` and `exp(38.94·dG_A)` otherwise, and
weight `= 1`, evaluated at the forward free energy `dG_A`. -/
theorem graph_rep_1_1_spec (r : ReactionView) (a b : Nat)
    (ha : r.rct_indices = [a]) (hb : r.pro_indices = [b]) (hab : a ≠ b) :
    graph_rep_1_1 r = Except.ok
      { nodes :=
          [⟨GNode.rxn (Nat.repr a ++ "," ++ Nat.repr b), r.rxn_type_A, 1, r.energy_A,
            r.free_energy_A,
            Nat.repr (r.rct_ids.getD 0 0) ++ "," ++ Nat.repr (r.pro_ids.getD 0 0)⟩,
           ⟨GNode.rxn (Nat.repr b ++ "," ++ Nat.repr a), r.rxn_type_B, 1, r.energy_B,
            r.free_energy_B,
            Nat.repr (r.pro_ids.getD 0 0) ++ "," ++ Nat.repr (r.rct_ids.getD 0 0)⟩],
        edges :=
          [⟨GNode.species a, GNode.rxn (Nat.repr a ++ "," ++ Nat.repr b),
            ⟨Real.log (1 + 273 / 500 * Real.exp r.free_energy_A), Real.exp r.free_energy_A,
             some (if r.free_energy_A ≤ 0 then Real.exp r.free_energy_A
               else Real.exp (38.94 * r.free_energy_A)), 1⟩⟩,
           ⟨GNode.rxn (Nat.repr a ++ "," ++ Nat.repr b), GNode.species b, ⟨0, 0, some 0, 1⟩⟩,
           ⟨GNode.species b, GNode.rxn (Nat.repr b ++ "," ++ Nat.repr a),
            ⟨Real.log (1 + 273 / 500 * Real.exp r.free_energy_B), Real.exp r.free_energy_B,
             some (if r.free_energy_B ≤ 0 then Real.exp r.free_energy_B
               else Real.exp (38.94 * r.free_energy_B)), 1⟩⟩,
           ⟨GNode.rxn (Nat.repr b ++ "," ++ Nat.repr a), GNode.species a, ⟨0, 0, some 0, 1⟩⟩] }
    ∧ Nat.repr a ++ "," ++ Nat.repr b ≠ Nat.repr b ++ "," ++ Nat.repr a
    ∧ ([(GNode.species a, GNode.rxn (Nat.repr a ++ "," ++ Nat.repr b)),
        (GNode.rxn (Nat.repr a ++ "," ++ Nat.repr b), GNode.species b),
        (GNode.species b, GNode.rxn (Nat.repr b ++ "," ++ Nat.repr a)),
        (GNode.rxn (Nat.repr b ++ "," ++ Nat.repr a), GNode.species a)] :
        List (GNode × GNode)).Nodup := by
  refine ⟨?_, comma_name_ne hab, ?_⟩
  · simp [graph_rep_1_1, ha, hb, softplus, exponent, rexp]
  · simp [List.nodup_cons, Prod.ext_iff, hab, comma_name_ne hab]

/-- Witness for C2 at the concrete reaction `exampleRxn11` with indices 0 and
1. -/
theorem graph_rep_1_1_spec_witness :
    exampleRxn11.rct_indices = [0] ∧ exampleRxn11.pro_indices = [1] ∧ (0 : Nat) ≠ 1 ∧
    (graph_rep_1_1 exampleRxn11 = Except.ok
      { nodes :=
          [⟨GNode.rxn (Nat.repr 0 ++ "," ++ Nat.repr 1), exampleRxn11.rxn_type_A, 1,
            exampleRxn11.energy_A, exampleRxn11.free_energy_A,
            Nat.repr (exampleRxn11.rct_ids.getD 0 0) ++ ","
              ++ Nat.repr (exampleRxn11.pro_ids.getD 0 0)⟩,
           ⟨GNode.rxn (Nat.repr 1 ++ "," ++ Nat.repr 0), exampleRxn11.rxn_type_B, 1,
            exampleRxn11.energy_B, exampleRxn11.free_energy_B,
            Nat.repr (exampleRxn11.pro_ids.getD 0 0) ++ ","
              ++ Nat.repr (exampleRxn11.rct_ids.getD 0 0)⟩],
        edges :=
          [⟨GNode.species 0, GNode.rxn (Nat.repr 0 ++ "," ++ Nat.repr 1),
            ⟨Real.log (1 + 273 / 500 * Real.exp exampleRxn11.free_energy_A),
             Real.exp exampleRxn11.free_energy_A,
             some (if exampleRxn11.free_energy_A ≤ 0 then Real.exp exampleRxn11.free_energy_A
               else Real.exp (38.94 * exampleRxn11.free_energy_A)), 1⟩⟩,
           ⟨GNode.rxn (Nat.repr 0 ++ "," ++ Nat.repr 1), GNode.species 1, ⟨0, 0, some 0, 1⟩⟩,
           ⟨GNode.species 1, GNode.rxn (Nat.repr 1 ++ "," ++ Nat.repr 0),
            ⟨Real.log (1 + 273 / 500 * Real.exp exampleRxn11.free_energy_B),
             Real.exp exampleRxn11.free_energy_B,
             some (if exampleRxn11.free_energy_B ≤ 0 then Real.exp exampleRxn11.free_energy_B
               else Real.exp (38.94 * exampleRxn11.free_energy_B)), 1⟩⟩,
           ⟨GNode.rxn (Nat.repr 1 ++ "," ++ Nat.repr 0), GNode.species 0, ⟨0, 0, some 0, 1⟩⟩] }
    ∧ Nat.repr 0 ++ "," ++ Nat.repr 1 ≠ Nat.repr 1 ++ "," ++ Nat.repr 0
    ∧ ([(GNode.species 0, GNode.rxn (Nat.repr 0 ++ "," ++ Nat.repr 1)),
        (GNode.rxn (Nat.repr 0 ++ "," ++ Nat.repr 1), GNode.species 1),
        (GNode.species 1, GNode.rxn (Nat.repr 1 ++ "," ++ Nat.repr 0)),
        (GNode.rxn (Nat.repr 1 ++ "," ++ Nat.repr 0), GNode.species 0)] :
        List (GNode × GNode)).Nodup) :=
  ⟨rfl, rfl, by decide, graph_rep_1_1_spec exampleRxn11 0 1 rfl rfl (by decide)⟩

/-- C1: the load-time seed consistency check can never fire, because the
source derives both seed lists from the reaction-history filenames
(analyze.py line 64); in particular, for the concrete histories folder
containing `reactions_1_x` and `times_2_x` the construction succeeds even
though the reaction files carry seed set `{1}` and the time files seed set
`{2}`. -/
theorem seed_check_never_raises :
    (∀ contents, seed_check contents = Except.ok ())
    ∧ seed_check ["reactions_1_x", "times_2_x"] = Except.ok ()
    ∧ reaction_seeds_from_reaction_files ["reactions_1_x", "times_2_x"]
        ≠ time_seeds_from_time_files ["reactions_1_x", "times_2_x"] := by
  refine ⟨?_, ?_, ?_⟩
  · intro contents
    unfold seed_check
    simp
  · unfold seed_check
    simp
  · decide

/-! ## Lemmas about `update_state` and the resolution loop -/

theorem length_foldl_applyDelta (c : Int) (l : List Nat) (st : MCState) :
    (l.foldl (applyDelta c) st).length = st.length := by
  induction l generalizing st with
  | nil => rfl
  | cons j l ih => rw [List.foldl_cons, ih]; simp [applyDelta]

theorem getD_applyDelta_self (c : Int) (st : MCState) (i : Nat) (h : i < st.length) :
    (applyDelta c st i).getD i 0 = st.getD i 0 + c := by
  simp [applyDelta, List.getD_eq_getElem?_getD, List.getElem?_set_self', h,
    List.getElem?_eq_getElem h]

theorem getD_applyDelta_ne (c : Int) (st : MCState) (i j : Nat) (h : j ≠ i) :
    (applyDelta c st j).getD i 0 = st.getD i 0 := by
  simp [applyDelta, List.getD_eq_getElem?_getD, List.getElem?_set_ne h]

theorem getD_foldl_applyDelta (c : Int) (l : List Nat) (st : MCState) (i : Nat)
    (h : i < st.length) :
    (l.foldl (applyDelta c) st).getD i 0 = st.getD i 0 + c * l.count i := by
  induction l generalizing st with
  | nil => simp
  | cons j l ih =>
    rw [List.foldl_cons]
    have hlen : i < (applyDelta c st j).length := by simpa [applyDelta] using h
    rw [ih (applyDelta c st j) hlen]
    by_cases hji : j = i
    · subst hji
      rw [getD_applyDelta_self c st j h]
      simp [List.count_cons]
      ring
    · rw [getD_applyDelta_ne c st i j hji]
      simp [List.count_cons, hji]

theorem update_state_length (st : MCState) (r : MCReaction) :
    (update_state st r).length = st.length := by
  simp [update_state, length_foldl_applyDelta]

theorem update_state_getD (st : MCState) (r : MCReaction) (i : Nat) (h : i < st.length) :
    (update_state st r).getD i 0
      = st.getD i 0 + (r.products.count i : Int) - (r.reactants.count i : Int) := by
  unfold update_state
  have h1 : i < (r.reactants.foldl (applyDelta (-1)) st).length := by
    rw [length_foldl_applyDelta]; exact h
  rw [getD_foldl_applyDelta 1 r.products _ i h1,
    getD_foldl_applyDelta (-1) r.reactants st i h]
  ring

/-- C5 counterexample: with partial state `[-2]` (species 0 at count −2) and a
history whose first reaction produces one unit of species 0, the resolution
step leaves species 0 at −1, so the number of negative-count species does not
decrease. -/
theorem resolve_one_counterexample :
    negative_species [(-2 : Int)] = [0]
    ∧ resolve_one (fun _ => ⟨[], [0]⟩) [0] 0 ([(-2 : Int)], []) = ([(-1 : Int)], [0])
    ∧ ¬ ((negative_species (resolve_one (fun _ => ⟨[], [0]⟩) [0] 0 ([(-2 : Int)], [])).1).length
        < (negative_species [(-2 : Int)]).length) := by
  refine ⟨by decide, by decide, by decide⟩

/-- C5 amended: a resolution step applies the first history reaction producing
the resolved species, prepends its index to the pathway, and changes the
resolved species' count by exactly its product occurrences minus its reactant
occurrences in that reaction; the species is guaranteed to leave the negative
set when its count was −1 and the applied reaction does not consume it.  (The
total number of negative-count species need not decrease, see the
counterexample.) -/
theorem resolve_one_spec (index_to_reaction : Nat → MCReaction) (history : List Nat)
    (s : Nat) (st : MCState) (pw : List Nat) (ri : Nat)
    (hfind : history.find? (fun i => (index_to_reaction i).products.contains s) = some ri)
    (hs : s < st.length) :
    (resolve_one index_to_reaction history s (st, pw)).1.getD s 0
      = st.getD s 0 + ((index_to_reaction ri).products.count s : Int)
        - ((index_to_reaction ri).reactants.count s : Int)
    ∧ (resolve_one index_to_reaction history s (st, pw)).2 = ri :: pw
    ∧ (st.getD s 0 = -1 → (index_to_reaction ri).reactants.count s = 0 →
        s ∉ negative_species (resolve_one index_to_reaction history s (st, pw)).1) := by
  have h1 : resolve_one index_to_reaction history s (st, pw)
      = (update_state st (index_to_reaction ri), ri :: pw) := by
    unfold resolve_one
    rw [hfind]
  rw [h1]
  refine ⟨update_state_getD st (index_to_reaction ri) s hs, rfl, ?_⟩
  intro hneg hcnt
  have hpred := List.find?_some hfind
  have hmem : s ∈ (index_to_reaction ri).products := by
    simpa [List.contains] using hpred
  have hcount : 0 < (index_to_reaction ri).products.count s := List.count_pos_iff.mpr hmem
  have hval := update_state_getD st (index_to_reaction ri) s hs
  rw [hneg, hcnt] at hval
  simp only [negative_species, List.mem_filter, List.mem_range, not_and, decide_eq_true_eq]
  intro _
  rw [hval]
  omega

/-- Witness for C5's amended theorem at the concrete state `[0, -1]`, species
1, and a history whose only reaction produces species 1 from species 0. -/
theorem resolve_one_spec_witness :
    ([7] : List Nat).find? (fun i =>
        ((fun _ => (⟨[0], [1]⟩ : MCReaction)) i).products.contains 1) = some 7
    ∧ (1 : Nat) < ([0, -1] : MCState).length
    ∧ ((resolve_one (fun _ => ⟨[0], [1]⟩) [7] 1 ([0, -1], [])).1.getD 1 0
        = ([0, -1] : MCState).getD 1 0 + (((⟨[0], [1]⟩ : MCReaction)).products.count 1 : Int)
          - (((⟨[0], [1]⟩ : MCReaction)).reactants.count 1 : Int)
      ∧ (resolve_one (fun _ => ⟨[0], [1]⟩) [7] 1 ([0, -1], [])).2 = [7]
      ∧ (([0, -1] : MCState).getD 1 0 = -1 → ((⟨[0], [1]⟩ : MCReaction)).reactants.count 1 = 0 →
          1 ∉ negative_species (resolve_one (fun _ => ⟨[0], [1]⟩) [7] 1 ([0, -1], [])).1)) :=
  ⟨by decide, by decide,
    resolve_one_spec (fun _ => ⟨[0], [1]⟩) [7] 1 [0, -1] [] 7 (by decide) (by decide)⟩

/-- C7: for initial state `[1, 0, 0]`, the single history `[r0, r1]` with
`r0 : species0 -> species1` and `r1 : species1 -> species2`, and target
species 2, the extraction yields exactly one deduplicated record, with pathway
`[r0, r1]` and frequency 1. -/
theorem extract_reaction_pathways_scenario :
    extract_reaction_pathways 3
        (fun i => ([⟨[0], [1]⟩, ⟨[1], [2]⟩] : List MCReaction).getD i ⟨[], []⟩)
        [1, 0, 0] 2 [[0, 1]]
      = some [(({0, 1} : Finset Nat), (⟨[0, 1], 1⟩ : PathwayRecord))] := by
  decide

/-! ## Lemmas about the pathway dictionary -/

theorem lookupKey_cons (k0 : Finset Nat) (r0 : PathwayRecord) (rest : PathwayDict)
    (k : Finset Nat) :
    lookupKey ((k0, r0) :: rest) k = if k0 = k then some r0 else lookupKey rest k := by
  by_cases h : k0 = k
  · simp [lookupKey, List.find?_cons_of_pos, h]
  · simp [lookupKey, List.find?_cons_of_neg, h]

theorem lookupKey_append (d1 d2 : PathwayDict) (k : Finset Nat) :
    lookupKey (d1 ++ d2) k = (lookupKey d1 k).or (lookupKey d2 k) := by
  unfold lookupKey
  rw [List.find?_append]
  cases List.find? (fun kv => kv.1 = k) d1 <;> simp

theorem lookupKey_nil (k : Finset Nat) : lookupKey [] k = none := rfl

theorem lookupKey_bumpFrequency (d : PathwayDict) (key k : Finset Nat) :
    lookupKey (bumpFrequency d key) k
      = if k = key then
          (lookupKey d k).map (fun r => (⟨r.pathway, r.frequency + 1⟩ : PathwayRecord))
        else lookupKey d k := by
  induction d with
  | nil => simp [bumpFrequency, lookupKey]
  | cons kv rest ih =>
    obtain ⟨k0, r0⟩ := kv
    simp only [bumpFrequency]
    by_cases h0 : k0 = key
    · subst h0
      rw [if_pos rfl]
      simp only [lookupKey_cons]
      by_cases hk : k0 = k
      · subst hk
        simp
      · simp [hk, Ne.symm hk]
    · rw [if_neg h0]
      simp only [lookupKey_cons, ih]
      by_cases hk : k0 = k
      · subst hk
        simp [h0]
      · simp [hk]

theorem collect_lookup (ps : List (List Nat)) (k : Finset Nat) :
    lookupKey (collect_duplicate_pathways ps) k
      = (ps.find? (fun p => p.toFinset = k)).map
          (fun p => (⟨p, (ps.filter (fun q => q.toFinset = k)).length⟩ : PathwayRecord)) := by
  induction ps using List.reverseRecOn with
  | nil => rfl
  | append_singleton ps p ih =>
    have hc : collect_duplicate_pathways (ps ++ [p])
        = addPathway (collect_duplicate_pathways ps) p := by
      simp [collect_duplicate_pathways, List.foldl_append]
    rw [hc]
    by_cases hpk : p.toFinset = k
    · cases hfound : lookupKey (collect_duplicate_pathways ps) k with
      | none =>
        have hfind : ps.find? (fun q => q.toFinset = k) = none := by
          rcases h2 : ps.find? (fun q => q.toFinset = k) with _ | q
          · exact h2
          · rw [ih, h2] at hfound
            simp at hfound
        unfold addPathway
        rw [hpk, hfound]
        rw [if_neg (by simp)]
        rw [lookupKey_append, hfound, lookupKey_cons, if_pos rfl]
        rw [List.find?_append, hfind, List.filter_append]
        have hfilter : ps.filter (fun q => q.toFinset = k) = [] := by
          rw [List.filter_eq_nil_iff]
          intro a ha
          simpa using List.find?_eq_none.mp hfind a ha
        rw [hfilter]
        simp [hpk]
      | some r =>
        have hfind : ps.find? (fun q => q.toFinset = k) = some r.pathway
            ∧ r.frequency = (ps.filter (fun q => q.toFinset = k)).length := by
          rw [ih] at hfound
          rcases h2 : ps.find? (fun q => q.toFinset = k) with _ | q
          · rw [h2] at hfound
            simp at hfound
          · rw [h2, Option.map_some'] at hfound
            obtain rfl := Option.some.inj hfound
            exact ⟨h2, rfl⟩
        unfold addPathway
        rw [hpk]
        rw [if_pos (by rw [hfound]; rfl)]
        rw [lookupKey_bumpFrequency, if_pos rfl, hfound]
        rw [List.find?_append, hfind.1, List.filter_append]
        simp [hpk, hfind.2]
    · unfold addPathway
      by_cases hsome : (lookupKey (collect_duplicate_pathways ps) p.toFinset).isSome = true
      · rw [if_pos hsome, lookupKey_bumpFrequency,
          if_neg (fun he : k = p.toFinset => hpk he.symm), ih]
        rw [List.find?_append, List.filter_append]
        have hfp : List.find? (fun q => decide (q.toFinset = k)) [p] = none := by simp [hpk]
        have hflt : List.filter (fun q => decide (q.toFinset = k)) [p] = [] := by simp [hpk]
        rw [hfp, hflt]
        simp
      · rw [if_neg hsome, lookupKey_append, ih, lookupKey_cons, if_neg hpk, lookupKey_nil]
        rw [List.find?_append, List.filter_append]
        have hfp : List.find? (fun q => decide (q.toFinset = k)) [p] = none := by simp [hpk]
        have hflt : List.filter (fun q => decide (q.toFinset = k)) [p] = [] := by simp [hpk]
        rw [hfp, hflt]
        simp

/-- C9: `collect_duplicate_pathways` keys records by the frozenset of reaction
indices: a record stored under key `k` has frequency equal to the number of
input pathways whose index set is `k`, and its stored representative pathway
is the first such pathway in input order (so order-variants and
multiplicity-variants of the same index set collapse into one record). -/
theorem collect_duplicate_pathways_spec (ps : List (List Nat)) (k : Finset Nat)
    (r : PathwayRecord)
    (h : lookupKey (collect_duplicate_pathways ps) k = some r) :
    r.frequency = (ps.filter (fun p => p.toFinset = k)).length
    ∧ ps.find? (fun p => p.toFinset = k) = some r.pathway := by
  rw [collect_lookup] at h
  rcases h2 : ps.find? (fun p => p.toFinset = k) with _ | q
  · rw [h2] at h; simp at h
  · rw [h2] at h
    rw [Option.map_some'] at h
    obtain rfl := Option.some.inj h
    exact ⟨rfl, h2⟩

/-- Witness for C9: the three pathways `[0,1]`, `[1,0]`, `[0,1,1]` share the
index set `{0,1}` and collapse into one record with frequency 3 whose
representative is the first of them. -/
theorem collect_duplicate_pathways_spec_witness :
    lookupKey (collect_duplicate_pathways [[0, 1], [1, 0], [0, 1, 1]]) {0, 1}
      = some (⟨[0, 1], 3⟩ : PathwayRecord)
    ∧ ((⟨[0, 1], 3⟩ : PathwayRecord).frequency
        = (([[0, 1], [1, 0], [0, 1, 1]] : List (List Nat)).filter
            (fun p => p.toFinset = ({0, 1} : Finset Nat))).length
      ∧ ([[0, 1], [1, 0], [0, 1, 1]] : List (List Nat)).find?
            (fun p => p.toFinset = ({0, 1} : Finset Nat))
          = some (⟨[0, 1], 3⟩ : PathwayRecord).pathway) :=
  ⟨by decide, collect_duplicate_pathways_spec [[0, 1], [1, 0], [0, 1, 1]] {0, 1} ⟨[0, 1], 3⟩
    (by decide)⟩

/-- C10: `get_free_energy` returns `None` exactly when enthalpy or entropy is
missing, and otherwise the closed-form combination
`energy*27.21139 + 0.0433641*enthalpy - temp*entropy*0.0000433641` with
`energy` the corrected electronic energy. -/
theorem get_free_energy_spec (m : MolThermo) (temp : ℝ) :
    (m.enthalpy = none ∨ m.entropy = none → m.get_free_energy temp = none)
    ∧ (∀ eh es, m.enthalpy = some eh → m.entropy = some es →
        m.get_free_energy temp
          = some ((m.uncorrected_energy + m.correction) * 27.21139 + 0.0433641 * eh
              - temp * es * 0.0000433641)) := by
  constructor
  · intro hmiss
    cases hmiss with
    | inl h1 => simp [MolThermo.get_free_energy, h1]
    | inr h2 =>
      rcases hE : m.enthalpy with _ | eh <;>
        simp [MolThermo.get_free_energy, hE, h2]
  · intro eh es hh hs
    simp [MolThermo.get_free_energy, hh, hs, MolThermo.energy]

/-- Witness for C10: one entry missing its enthalpy yields `none`; one entry
with both present yields the closed-form value. -/
theorem get_free_energy_spec_witness :
    MolThermo.get_free_energy ⟨1, 2, none, some 3⟩ 300 = none
    ∧ MolThermo.get_free_energy ⟨1, 2, some 4, some 3⟩ 300
        = some ((1 + 2) * 27.21139 + 0.0433641 * 4 - 300 * 3 * 0.0000433641) :=
  ⟨(get_free_energy_spec ⟨1, 2, none, some 3⟩ 300).1 (Or.inl rfl),
   (get_free_energy_spec ⟨1, 2, some 4, some 3⟩ 300).2 4 3 rfl rfl⟩

/-- C3: evaluating `ConcertedReaction.energy` on a concerted reaction whose
constituent energies are all present stores `None` in both `energy_A` and
`energy_B` (the guard at reactions.py line 1880 reads `all(nrg is None ...)`
instead of `all(nrg is not None ...)`), so `energy_A == -energy_B` fails for
concerted reactions even though every other archetype satisfies it. -/
theorem concerted_energy_stores_none :
    (ConcertedReaction.energy exampleConcerted).map (fun c => (c.energy_A, c.energy_B))
      = some (none, none) := by
  rfl

/-- C4: in `graph_rep_3_2` on a concrete 3-to-2 reaction (indices `[0,1,2]`
to `[3,4]`), the composite node `2+PR_0+PR_1,3+4` has no outgoing edges at
all (the edges of its block are attached to `1+PR_0+PR_2,3+4`, which gets
four), and every edge leaving a composite node lacks the `rexp` weight field,
contradicting the claim that each composite node carries outgoing edges to
every product with all weight fields 0.0. -/
theorem graph_rep_3_2_violation :
    (graph_rep_3_2 exampleRxn32).map (fun g =>
        ((outgoingFromComposite g "0+PR_1+PR_2,3+4").length,
         (outgoingFromComposite g "1+PR_0+PR_2,3+4").length,
         (outgoingFromComposite g "2+PR_0+PR_1,3+4").length,
         (compositeSourceEdges g).map (fun e => e.attrs.rexp.isNone)))
      = Except.ok (2, 4, 0, List.replicate 12 true) := by
  rfl

/-! ## Lemmas about `RedoxReaction.generate` -/

theorem chargeSlot_mem (cl : ChargeBucket) (c : Int) (m : MolEntry)
    (h : m ∈ chargeSlot cl c) : ∃ ckv ∈ cl, ckv.1 = c ∧ m ∈ ckv.2 := by
  unfold chargeSlot at h
  rcases hf : cl.find? (fun kv => kv.1 == c) with _ | kv
  · rw [hf] at h
    simp at h
  · rw [hf] at h
    have hm := List.mem_of_find?_eq_some hf
    have hp := List.find?_some hf
    exact ⟨kv, hm, by simpa using hp, h⟩

/-- C6: every reaction produced by `RedoxReaction.generate` from a bucket that
files entries under their own attributes pairs a reactant and a product with
the same formula, the same bond count, graphs accepted by the isomorphism
oracle, and product charge exactly one above reactant charge (in particular
`|charge(product) - charge(reactant)| = 1`). -/
theorem RedoxReaction.generate_spec (isIso : Nat → Nat → Bool) (entries : FormulaBucket)
    (hwf : bucketWF entries = true) (gr : GeneratedRedox)
    (hmem : gr ∈ RedoxReaction.generate isIso entries) :
    gr.reactant.formula = gr.product.formula
    ∧ gr.reactant.num_bonds = gr.product.num_bonds
    ∧ isIso gr.reactant.graph gr.product.graph = true
    ∧ gr.product.charge - gr.reactant.charge = 1
    ∧ (gr.product.charge - gr.reactant.charge).natAbs = 1 := by
  simp only [bucketWF, List.all_eq_true, Bool.and_eq_true, beq_iff_eq] at hwf
  simp only [RedoxReaction.generate, List.mem_flatMap] at hmem
  obtain ⟨fkv, hfkv, hmem⟩ := hmem
  obtain ⟨nbkv, hnbkv, hmem⟩ := hmem
  obtain ⟨cc, _hcc, hmem⟩ := hmem
  by_cases hdiff : cc.2 - cc.1 = 1
  · rw [if_pos hdiff] at hmem
    rw [List.mem_flatMap] at hmem
    obtain ⟨e0, he0, hmem⟩ := hmem
    rw [List.mem_filterMap] at hmem
    obtain ⟨e1, he1, heq⟩ := hmem
    by_cases hiso : isIso e0.graph e1.graph = true
    · rw [if_pos hiso] at heq
      obtain rfl := Option.some.inj heq
      obtain ⟨ckv0, hckv0, hc0, hm0⟩ := chargeSlot_mem nbkv.2 cc.1 e0 he0
      obtain ⟨ckv1, hckv1, hc1, hm1⟩ := chargeSlot_mem nbkv.2 cc.2 e1 he1
      obtain ⟨⟨hf0, hb0⟩, hq0⟩ := hwf fkv hfkv nbkv hnbkv ckv0 hckv0 e0 hm0
      obtain ⟨⟨hf1, hb1⟩, hq1⟩ := hwf fkv hfkv nbkv hnbkv ckv1 hckv1 e1 hm1
      have hcharge : e1.charge - e0.charge = 1 := by
        rw [hq0, hq1, hc0, hc1]
        exact hdiff
      refine ⟨by rw [hf0, hf1], by rw [hb0, hb1], hiso, hcharge, by rw [hcharge]; rfl⟩
    · rw [if_neg hiso] at heq
      exact absurd heq (by simp)
  · rw [if_neg hdiff] at hmem
    simp at hmem

/-- Witness for C6: the two `X1` entries with charges 0 and 1, bucketed by
`bucket_mol_entries` and enumerated with an always-true isomorphism oracle,
produce the oxidation pairing of the two. -/
theorem RedoxReaction.generate_spec_witness :
    bucketWF (bucket_mol_entries [exampleEntryA, exampleEntryB]) = true
    ∧ (⟨exampleEntryA, exampleEntryB⟩ : GeneratedRedox)
        ∈ RedoxReaction.generate (fun _ _ => true)
            (bucket_mol_entries [exampleEntryA, exampleEntryB])
    ∧ (exampleEntryA.formula = exampleEntryB.formula
      ∧ exampleEntryA.num_bonds = exampleEntryB.num_bonds
      ∧ (fun _ _ => true) exampleEntryA.graph exampleEntryB.graph = true
      ∧ exampleEntryB.charge - exampleEntryA.charge = 1
      ∧ (exampleEntryB.charge - exampleEntryA.charge).natAbs = 1) :=
  ⟨by decide, by decide,
    RedoxReaction.generate_spec (fun _ _ => true)
      (bucket_mol_entries [exampleEntryA, exampleEntryB]) (by decide)
      ⟨exampleEntryA, exampleEntryB⟩ (by decide)⟩

/-! ## Lemmas: bucket / unbucket round trip -/

theorem insertLeaf_cons (c1 : Int) (ms : List MolEntry) (rest : ChargeBucket) (c0 : Int)
    (m : MolEntry) :
    insertLeaf ((c1, ms) :: rest) c0 m
      = if c1 = c0 then (c1, ms ++ [m]) :: rest else (c1, ms) :: insertLeaf rest c0 m := rfl

theorem insertNB_cons (nb1 : Nat) (cl : ChargeBucket) (rest : NBBucket) (nb0 : Nat)
    (c0 : Int) (m : MolEntry) :
    insertNB ((nb1, cl) :: rest) nb0 c0 m
      = if nb1 = nb0 then (nb1, insertLeaf cl c0 m) :: rest
        else (nb1, cl) :: insertNB rest nb0 c0 m := rfl

theorem insertFormula_cons (f1 : String) (nbl : NBBucket) (rest : FormulaBucket)
    (m : MolEntry) :
    insertFormula ((f1, nbl) :: rest) m
      = if f1 = m.formula then (f1, insertNB nbl m.num_bonds m.charge m) :: rest
        else (f1, nbl) :: insertFormula rest m := rfl

theorem chargeSlot_cons (c1 : Int) (ms : List MolEntry) (rest : ChargeBucket) (c : Int) :
    chargeSlot ((c1, ms) :: rest) c = if c1 = c then ms else chargeSlot rest c := by
  by_cases h : c1 = c
  · rw [if_pos h]
    unfold chargeSlot
    rw [List.find?_cons_of_pos _ (by simpa using h)]
  · rw [if_neg h]
    unfold chargeSlot
    rw [List.find?_cons_of_neg _ (by simpa using h)]

theorem leafOfNB_cons (nb1 : Nat) (cl : ChargeBucket) (rest : NBBucket) (nb : Nat)
    (c : Int) :
    leafOfNB ((nb1, cl) :: rest) nb c
      = if nb1 = nb then chargeSlot cl c else leafOfNB rest nb c := by
  by_cases h : nb1 = nb
  · rw [if_pos h]
    unfold leafOfNB
    rw [List.find?_cons_of_pos _ (by simpa using h)]
  · rw [if_neg h]
    unfold leafOfNB
    rw [List.find?_cons_of_neg _ (by simpa using h)]

theorem leafOf_cons (f1 : String) (nbl : NBBucket) (rest : FormulaBucket) (f : String)
    (nb : Nat) (c : Int) :
    leafOf ((f1, nbl) :: rest) f nb c
      = if f1 = f then leafOfNB nbl nb c else leafOf rest f nb c := by
  by_cases h : f1 = f
  · rw [if_pos h]
    unfold leafOf
    rw [List.find?_cons_of_pos _ (by simpa using h)]
  · rw [if_neg h]
    unfold leafOf
    rw [List.find?_cons_of_neg _ (by simpa using h)]

theorem chargeSlot_insertLeaf (cl : ChargeBucket) (c0 c : Int) (m : MolEntry) :
    chargeSlot (insertLeaf cl c0 m) c
      = chargeSlot cl c ++ (if c0 = c then [m] else []) := by
  induction cl with
  | nil =>
    rw [show insertLeaf [] c0 m = [(c0, [m])] from rfl, chargeSlot_cons]
    by_cases hc : c0 = c <;> simp [hc, chargeSlot]
  | cons kv rest ih =>
    obtain ⟨c1, ms⟩ := kv
    rw [insertLeaf_cons]
    by_cases h1 : c1 = c0
    · rw [if_pos h1, chargeSlot_cons, chargeSlot_cons]
      by_cases hc : c1 = c
      · rw [if_pos hc, if_pos hc, if_pos (h1.symm.trans hc)]
      · rw [if_neg hc, if_neg hc, if_neg (fun he : c0 = c => hc (h1.trans he))]
        simp
    · rw [if_neg h1, chargeSlot_cons, chargeSlot_cons]
      by_cases hc : c1 = c
      · rw [if_pos hc, if_pos hc, if_neg (fun he : c0 = c => h1 (hc.trans he.symm))]
        simp
      · rw [if_neg hc, if_neg hc]
        exact ih

theorem leafOfNB_insertNB (nbl : NBBucket) (nb0 nb : Nat) (c0 c : Int) (m : MolEntry) :
    leafOfNB (insertNB nbl nb0 c0 m) nb c
      = leafOfNB nbl nb c ++ (if nb0 = nb ∧ c0 = c then [m] else []) := by
  induction nbl with
  | nil =>
    rw [show insertNB [] nb0 c0 m = [(nb0, insertLeaf [] c0 m)] from rfl, leafOfNB_cons]
    by_cases hnb : nb0 = nb
    · rw [if_pos hnb, chargeSlot_insertLeaf]
      by_cases hc : c0 = c <;> simp [hnb, hc, chargeSlot, leafOfNB]
    · rw [if_neg hnb]
      simp [hnb, leafOfNB]
  | cons kv rest ih =>
    obtain ⟨nb1, cl⟩ := kv
    rw [insertNB_cons]
    by_cases h1 : nb1 = nb0
    · rw [if_pos h1, leafOfNB_cons, leafOfNB_cons]
      by_cases hnb : nb1 = nb
      · rw [if_pos hnb, if_pos hnb, chargeSlot_insertLeaf]
        have hn : nb0 = nb := h1.symm.trans hnb
        by_cases hc : c0 = c <;> simp [hn, hc]
      · rw [if_neg hnb, if_neg hnb,
          if_neg (fun hand : nb0 = nb ∧ c0 = c => hnb (h1.trans hand.1))]
        simp
    · rw [if_neg h1, leafOfNB_cons, leafOfNB_cons]
      by_cases hnb : nb1 = nb
      · rw [if_pos hnb, if_pos hnb,
          if_neg (fun hand : nb0 = nb ∧ c0 = c => h1 (hnb.trans hand.1.symm))]
        simp
      · rw [if_neg hnb, if_neg hnb]
        exact ih

theorem leafOf_insertFormula (b : FormulaBucket) (f : String) (nb : Nat) (c : Int)
    (m : MolEntry) :
    leafOf (insertFormula b m) f nb c
      = leafOf b f nb c
        ++ (if m.formula = f ∧ m.num_bonds = nb ∧ m.charge = c then [m] else []) := by
  induction b with
  | nil =>
    rw [show insertFormula [] m = [(m.formula, insertNB [] m.num_bonds m.charge m)] from rfl,
      leafOf_cons]
    by_cases hf : m.formula = f
    · rw [if_pos hf, leafOfNB_insertNB]
      by_cases h2 : m.num_bonds = nb ∧ m.charge = c <;> simp [leafOfNB, leafOf, hf, h2]
    · rw [if_neg hf]
      have hno : ¬(m.formula = f ∧ m.num_bonds = nb ∧ m.charge = c) := fun hand => hf hand.1
      simp [leafOf, hno]
  | cons kv rest ih =>
    obtain ⟨f1, nbl⟩ := kv
    rw [insertFormula_cons]
    by_cases h1 : f1 = m.formula
    · rw [if_pos h1, leafOf_cons, leafOf_cons]
      by_cases hf : f1 = f
      · rw [if_pos hf, if_pos hf, leafOfNB_insertNB]
        have hff : m.formula = f := h1.symm.trans hf
        by_cases h2 : m.num_bonds = nb ∧ m.charge = c <;> simp [hff, h2, and_assoc]
      · rw [if_neg hf, if_neg hf,
          if_neg (fun hand : m.formula = f ∧ m.num_bonds = nb ∧ m.charge = c =>
            hf (h1.trans hand.1))]
        simp
    · rw [if_neg h1, leafOf_cons, leafOf_cons]
      by_cases hf : f1 = f
      · rw [if_pos hf, if_pos hf,
          if_neg (fun hand : m.formula = f ∧ m.num_bonds = nb ∧ m.charge = c =>
            h1 (hf.trans hand.1.symm))]
        simp
      · rw [if_neg hf, if_neg hf]
        exact ih

theorem unbucketLeaf_cons (c1 : Int) (ms : List MolEntry) (rest : ChargeBucket) :
    unbucketLeaf ((c1, ms) :: rest) = ms ++ unbucketLeaf rest := by
  simp [unbucketLeaf]

theorem unbucketNB_cons (nb1 : Nat) (cl : ChargeBucket) (rest : NBBucket) :
    unbucketNB ((nb1, cl) :: rest) = unbucketLeaf cl ++ unbucketNB rest := by
  simp [unbucketNB]

theorem unbucket_cons (f1 : String) (nbl : NBBucket) (rest : FormulaBucket) :
    unbucket_mol_entries ((f1, nbl) :: rest) = unbucketNB nbl ++ unbucket_mol_entries rest := by
  simp [unbucket_mol_entries]

theorem unbucketLeaf_insertLeaf (cl : ChargeBucket) (c0 : Int) (m : MolEntry) :
    (unbucketLeaf (insertLeaf cl c0 m)).Perm (m :: unbucketLeaf cl) := by
  induction cl with
  | nil => simp [insertLeaf, unbucketLeaf]
  | cons kv rest ih =>
    obtain ⟨c1, ms⟩ := kv
    rw [insertLeaf_cons]
    by_cases h1 : c1 = c0
    · rw [if_pos h1, unbucketLeaf_cons, unbucketLeaf_cons, List.append_assoc]
      exact List.perm_middle
    · rw [if_neg h1, unbucketLeaf_cons, unbucketLeaf_cons]
      exact (List.Perm.append_left ms ih).trans List.perm_middle

theorem unbucketNB_insertNB (nbl : NBBucket) (nb0 : Nat) (c0 : Int) (m : MolEntry) :
    (unbucketNB (insertNB nbl nb0 c0 m)).Perm (m :: unbucketNB nbl) := by
  induction nbl with
  | nil => simp [insertNB, unbucketNB, insertLeaf, unbucketLeaf]
  | cons kv rest ih =>
    obtain ⟨nb1, cl⟩ := kv
    rw [insertNB_cons]
    by_cases h1 : nb1 = nb0
    · rw [if_pos h1, unbucketNB_cons, unbucketNB_cons]
      refine (List.Perm.append_right (unbucketNB rest) (unbucketLeaf_insertLeaf cl c0 m)).trans ?_
      exact List.Perm.refl _
    · rw [if_neg h1, unbucketNB_cons, unbucketNB_cons]
      exact (List.Perm.append_left (unbucketLeaf cl) ih).trans List.perm_middle

theorem unbucket_insertFormula (b : FormulaBucket) (m : MolEntry) :
    (unbucket_mol_entries (insertFormula b m)).Perm (m :: unbucket_mol_entries b) := by
  induction b with
  | nil =>
    simp [insertFormula, unbucket_mol_entries, unbucketNB, insertNB, insertLeaf, unbucketLeaf]
  | cons kv rest ih =>
    obtain ⟨f1, nbl⟩ := kv
    rw [insertFormula_cons]
    by_cases h1 : f1 = m.formula
    · rw [if_pos h1, unbucket_cons, unbucket_cons]
      exact List.Perm.append_right (unbucket_mol_entries rest)
        (unbucketNB_insertNB nbl m.num_bonds m.charge m)
    · rw [if_neg h1, unbucket_cons, unbucket_cons]
      exact (List.Perm.append_left (unbucketNB nbl) ih).trans List.perm_middle

theorem bucket_append_singleton (xs : List MolEntry) (m : MolEntry) :
    bucket_mol_entries (xs ++ [m]) = insertFormula (bucket_mol_entries xs) m := by
  simp [bucket_mol_entries, List.foldl_append]

/-- C8: `unbucket_mol_entries` round-trips `bucket_mol_entries`: a singleton
round-trips exactly; for every entry list the flattening is a permutation of
the input; and every `(formula, num_bonds, charge)` leaf list equals the
filter of the input by that key, so entries landing in the same leaf keep
their original relative order. -/
theorem bucket_unbucket_round_trip :
    (∀ e : MolEntry, unbucket_mol_entries (bucket_mol_entries [e]) = [e])
    ∧ (∀ xs : List MolEntry, (unbucket_mol_entries (bucket_mol_entries xs)).Perm xs)
    ∧ (∀ (xs : List MolEntry) (f : String) (nb : Nat) (c : Int),
        leafOf (bucket_mol_entries xs) f nb c = xs.filter (keyMatch f nb c)) := by
  refine ⟨fun e => rfl, ?_, ?_⟩
  · intro xs
    induction xs using List.reverseRecOn with
    | nil => exact List.Perm.refl _
    | append_singleton xs m ih =>
      rw [bucket_append_singleton]
      exact ((unbucket_insertFormula (bucket_mol_entries xs) m).trans
        (List.Perm.cons m ih)).trans (List.perm_append_singleton m xs).symm
  · intro xs
    induction xs using List.reverseRecOn with
    | nil => intro f nb c; rfl
    | append_singleton xs m ih =>
      intro f nb c
      rw [bucket_append_singleton, leafOf_insertFormula, ih, List.filter_append]
      by_cases hk : m.formula = f ∧ m.num_bonds = nb ∧ m.charge = c
      · rw [if_pos hk]
        have : keyMatch f nb c m = true := by
          simp [keyMatch, hk.1, hk.2.1, hk.2.2]
        simp [this]
      · rw [if_neg hk]
        have : keyMatch f nb c m = false := by
          simp only [keyMatch]
          rcases not_and_or.mp hk with h | h2
          · simp [h]
          · rcases not_and_or.mp h2 with h | h
            · simp [h]
            · simp [h]
        simp [this]

/-- Supporting evidence for C4: in `graph_rep_1_2` on the concrete reaction
`[0] -> [1,2]`, each composite node has an outgoing edge to every member of
its outgoing side, all carrying softplus, exponent and rexp 0.0 and weight
1.0 — the 1-to-2 builder satisfies the claim that `graph_rep_3_2` violates. -/
theorem graph_rep_1_2_outgoing :
    (graph_rep_1_2 exampleRxn12).map (fun g =>
        ((outgoingFromComposite g "0,1+2").map (fun e => (e.dst, e.attrs)),
         (outgoingFromComposite g "1+PR_2,0").map (fun e => (e.dst, e.attrs)),
         (outgoingFromComposite g "2+PR_1,0").map (fun e => (e.dst, e.attrs))))
      = Except.ok
          ([(GNode.species 1, ⟨0, 0, some 0, 1⟩), (GNode.species 2, ⟨0, 0, some 0, 1⟩)],
           [(GNode.species 0, ⟨0, 0, some 0, 1⟩)],
           [(GNode.species 0, ⟨0, 0, some 0, 1⟩)]) := by
  rfl

/-- Supporting evidence for C4: in `graph_rep_2_2` on the concrete reaction
`[0,1] -> [2,3]`, each of the four composite nodes has an outgoing edge to
every member of its outgoing side, all carrying softplus, exponent and rexp
0.0 and weight 1.0. -/
theorem graph_rep_2_2_outgoing :
    (graph_rep_2_2 exampleRxn22).map (fun g =>
        ((outgoingFromComposite g "0+PR_1,2+3").map (fun e => (e.dst, e.attrs)),
         (outgoingFromComposite g "1+PR_0,2+3").map (fun e => (e.dst, e.attrs)),
         (outgoingFromComposite g "2+PR_3,0+1").map (fun e => (e.dst, e.attrs)),
         (outgoingFromComposite g "3+PR_2,0+1").map (fun e => (e.dst, e.attrs))))
      = Except.ok
          ([(GNode.species 2, ⟨0, 0, some 0, 1⟩), (GNode.species 3, ⟨0, 0, some 0, 1⟩)],
           [(GNode.species 2, ⟨0, 0, some 0, 1⟩), (GNode.species 3, ⟨0, 0, some 0, 1⟩)],
           [(GNode.species 0, ⟨0, 0, some 0, 1⟩), (GNode.species 1, ⟨0, 0, some 0, 1⟩)],
           [(GNode.species 0, ⟨0, 0, some 0, 1⟩), (GNode.species 1, ⟨0, 0, some 0, 1⟩)]) := by
  rfl

/-- Supporting evidence for C3: `RedoxReaction.free_energy` always stores
antisymmetric values (for a reaction whose reference cache is not yet filled,
as after construction), the electron free energy entering the two directions
with opposite sign. -/
theorem redox_free_energy_antisymm (r : RedoxReaction) (t : ℝ)
    (hbase : r.base_free_energy_A = none) :
    (r.free_energy t).free_energy_B = ((r.free_energy t).free_energy_A).map (fun x => -x) := by
  have hc : ¬(t = 298.15 ∧ r.base_free_energy_A.isSome ∧ r.base_free_energy_B.isSome) := by
    simp [hbase]
  unfold RedoxReaction.free_energy
  rw [if_neg hc]
  rcases h1 : mol_free_energy r.rct_energy r.rct_enthalpy r.rct_entropy t with _ | rf <;>
    rcases h2 : mol_free_energy r.pro_energy r.pro_enthalpy r.pro_entropy t with _ | pf <;>
      by_cases ht : t = 298.15 <;>
        by_cases hred : r.rxn_type_A = "One electron reduction" <;>
          simp [h1, h2, ht, hred]
  all_goals ring

/-- Supporting evidence for C3: `IntermolecularReaction.free_energy` always
stores antisymmetric values (for a reaction whose reference cache is not yet
filled). -/
theorem intermolecular_free_energy_antisymm (r : IntermolecularReaction) (t : ℝ)
    (hbase : r.base_free_energy_A = none) :
    (r.free_energy t).free_energy_B = ((r.free_energy t).free_energy_A).map (fun x => -x) := by
  have hc : ¬(t = 298.15 ∧ r.base_free_energy_A.isSome ∧ r.base_free_energy_B.isSome) := by
    simp [hbase]
  unfold IntermolecularReaction.free_energy
  rw [if_neg hc]
  rcases h1 : mol_free_energy r.rct_energy r.rct_enthalpy r.rct_entropy t with _ | rf <;>
    rcases h2 : mol_free_energy r.pro0_energy r.pro0_enthalpy r.pro0_entropy t with _ | p0 <;>
      rcases h3 : mol_free_energy r.pro1_energy r.pro1_enthalpy r.pro1_entropy t with _ | p1 <;>
        by_cases ht : t = 298.15 <;>
          simp [h1, h2, h3, ht]
  all_goals ring

theorem concerted_cache_free_energy_A (cond : Prop) [Decidable cond]
    (c2 : ConcertedReaction) :
    (if cond then
        { c2 with base_free_energy_A := c2.free_energy_A,
                  base_free_energy_B := c2.free_energy_B }
      else c2).free_energy_A = c2.free_energy_A := by
  split_ifs <;> rfl

theorem concerted_cache_free_energy_B (cond : Prop) [Decidable cond]
    (c2 : ConcertedReaction) :
    (if cond then
        { c2 with base_free_energy_A := c2.free_energy_A,
                  base_free_energy_B := c2.free_energy_B }
      else c2).free_energy_B = c2.free_energy_B := by
  split_ifs <;> rfl

/-- Supporting evidence for C3: `ConcertedReaction.free_energy` always stores
antisymmetric values (unconditionally: its cache branch does not return, so
the recomputation always runs), the total charge change scaling the electron
free energy with opposite sign in the two directions. -/
theorem concerted_free_energy_antisymm (c : ConcertedReaction) (t : ℝ) :
    (c.free_energy t).free_energy_B = ((c.free_energy t).free_energy_A).map (fun x => -x) := by
  unfold ConcertedReaction.free_energy
  rw [concerted_cache_free_energy_A, concerted_cache_free_energy_B]
  by_cases hcond :
      (participantFreeEnergies c.rct_ids.length c.rct_energy c.rct_enthalpy c.rct_entropy
        t).all Option.isSome
      ∧ (participantFreeEnergies c.pro_ids.length c.pro_energy c.pro_enthalpy c.pro_entropy
        t).all Option.isSome
  · rw [if_pos hcond]
    simp only [Option.map_some']
    congr 1
    ring
  · rw [if_neg hcond]
    rfl
